import Mathlib

/-!
Shallow embedding of the ilm-intent-router repository.

Part 1 models the on-ledger IntentRouter contract (the ERC20-escrow
variant in src/contracts, exercised by test/IntentRouter.test.ts).
Machine integers (uint256) are modeled as Nat with explicit checks where
Solidity 0.8 checked arithmetic would revert.  The external ERC20 token
(an out-of-scope collaborator per the spec) is modeled as a balance map
with standard transfer semantics: a transfer succeeds iff the sender
holds the amount and the receiver balance stays below 2 ^ 256; any
failure reverts the whole call, so an Except.error result leaves every
balance and intent record unchanged by construction.  The nonReentrant
guard is not modeled: in this pure model the token cannot re-enter.
-/

/-- Size bound of a uint256 word. -/
def UINT256 : Nat := 2 ^ 256

/-- Intent lifecycle status, from enum IntentStatus. -/
inductive IntentStatus
  | Open
  | Filled
  | Cancelled
  | Expired
deriving DecidableEq, Repr

/-- One stored intent record, from struct Intent.  Addresses, token
identifiers, amounts and the bytes32 execution hash are all modeled as
Nat. -/
structure Intent where
  user : Nat
  tokenIn : Nat
  tokenOut : Nat
  amountIn : Nat
  minAmountOut : Nat
  maxSlippageBps : Nat
  maxGasWei : Nat
  deadline : Nat
  status : IntentStatus
  winningSolver : Nat
  amountOut : Nat
  executionHash : Nat
deriving DecidableEq, Repr

/-- The zero-initialized Intent a Solidity mapping returns for an id that
was never written. -/
def zeroIntent : Intent :=
  { user := 0, tokenIn := 0, tokenOut := 0, amountIn := 0,
    minAmountOut := 0, maxSlippageBps := 0, maxGasWei := 0, deadline := 0,
    status := IntentStatus.Open, winningSolver := 0, amountOut := 0,
    executionHash := 0 }

/-- Balance sheet of every ERC20 token: token address, then account
address, to balance. -/
def Balances : Type := Nat → Nat → Nat

/-- Contract storage plus the token balance sheets.  The field self is
the address of the router contract itself (address(this)). -/
structure RouterState where
  self : Nat
  nextIntentId : Nat
  protocolFeeBps : Nat
  feeRecipient : Nat
  owner : Nat
  intents : Nat → Intent
  approvedSolvers : Nat → Bool
  balances : Balances

/-- Revert reasons: the custom errors of the contract, plus
RequireFailed for require(...) string reverts and Panic for Solidity 0.8
checked-arithmetic reverts. -/
inductive RouterError
  | NotOwner
  | NotIntentOwner
  | InvalidIntent
  | InvalidStatus
  | DeadlinePassed
  | SolverNotApproved
  | OutputTooLow
  | TransferFailed
  | RequireFailed
  | Panic
deriving DecidableEq, Repr

/-- Write one balance cell. -/
def setBal (bal : Balances) (token acct v : Nat) : Balances :=
  fun t a => if t = token ∧ a = acct then v else bal t a

/-- ERC20 transfer: move amt of token from frm to dst.  Fails (reverts)
when the sender balance is insufficient or the receiver balance would
overflow uint256. -/
def tokenTransfer (bal : Balances) (token frm dst amt : Nat) : Option Balances :=
  if amt ≤ bal token frm then
    if setBal bal token frm (bal token frm - amt) token dst + amt < UINT256 then
      some (setBal (setBal bal token frm (bal token frm - amt)) token dst
        (setBal bal token frm (bal token frm - amt) token dst + amt))
    else none
  else none

/-- Sequence a token transfer inside a contract call: a failed transfer
reverts the whole call with TransferFailed. -/
def bindT {α : Type} (r : Option Balances) (k : Balances → Except RouterError α) :
    Except RouterError α :=
  match r with
  | none => .error .TransferFailed
  | some b => k b

/-- Constructor state: owner is the deployer, protocolFeeBps starts at
10, nextIntentId at 1, no intents, no approved solvers.  The initial
token balance sheet is arbitrary (tokens pre-exist the router). -/
def initialState (deployer feeRecip selfAddr : Nat) (bal : Balances) : RouterState :=
  { self := selfAddr, nextIntentId := 1, protocolFeeBps := 10,
    feeRecipient := feeRecip, owner := deployer,
    intents := fun _ => zeroIntent,
    approvedSolvers := fun _ => false,
    balances := bal }

/-- createIntent: validate, escrow amountIn from the caller into the
contract, store the Open record under the next id.  The now argument is
block.timestamp. -/
def createIntent (s : RouterState) (caller tokenIn tokenOut amountIn minAmountOut
    maxSlippageBps maxGasWei deadline now : Nat) :
    Except RouterError (Nat × RouterState) :=
  if amountIn = 0 ∨ minAmountOut = 0 then .error .InvalidIntent
  else if deadline ≤ now then .error .InvalidIntent
  else if 10000 < maxSlippageBps then .error .InvalidIntent
  else
    bindT (tokenTransfer s.balances tokenIn caller s.self amountIn) fun b1 =>
      let intentId := s.nextIntentId
      let rec1 : Intent :=
        { user := caller, tokenIn := tokenIn, tokenOut := tokenOut,
          amountIn := amountIn, minAmountOut := minAmountOut,
          maxSlippageBps := maxSlippageBps, maxGasWei := maxGasWei,
          deadline := deadline, status := IntentStatus.Open,
          winningSolver := 0, amountOut := 0, executionHash := 0 }
      .ok (intentId,
        { s with nextIntentId := s.nextIntentId + 1,
                 intents := fun i => if i = intentId then rec1 else s.intents i,
                 balances := b1 })

/-- fillIntent: approved solver settles an Open intent.  Pulls amountOut
of tokenOut from the caller, pays amountOut minus fee to the intent
user, pays the fee to the fee recipient (skipped when the fee is zero),
and releases the escrowed amountIn of tokenIn to the caller.  The fee is
floor(amountOut * protocolFeeBps / 10000); the multiplication and the
subtraction carry the uint256 checked-arithmetic guards. -/
def fillIntent (s : RouterState) (caller intentId amountOut execHash now : Nat) :
    Except RouterError RouterState :=
  if s.approvedSolvers caller = false then .error .SolverNotApproved
  else
    let inx := s.intents intentId
    if inx.status ≠ IntentStatus.Open then .error .InvalidStatus
    else if inx.deadline < now then .error .DeadlinePassed
    else if amountOut < inx.minAmountOut then .error .OutputTooLow
    else if UINT256 ≤ amountOut * s.protocolFeeBps then .error .Panic
    else
      let fee := amountOut * s.protocolFeeBps / 10000
      if amountOut < fee then .error .Panic
      else
        let userAmount := amountOut - fee
        bindT (tokenTransfer s.balances inx.tokenOut caller s.self amountOut) fun b1 =>
        bindT (tokenTransfer b1 inx.tokenOut s.self inx.user userAmount) fun b2 =>
        bindT (if fee = 0 then some b2
               else tokenTransfer b2 inx.tokenOut s.self s.feeRecipient fee) fun b3 =>
        bindT (tokenTransfer b3 inx.tokenIn s.self caller inx.amountIn) fun b4 =>
        .ok { s with
              intents := fun i => if i = intentId then
                  { inx with status := IntentStatus.Filled,
                             winningSolver := caller,
                             amountOut := amountOut,
                             executionHash := execHash }
                else s.intents i,
              balances := b4 }

/-- cancelIntent: the intent user reclaims the escrowed amountIn of an
Open intent. -/
def cancelIntent (s : RouterState) (caller intentId : Nat) :
    Except RouterError RouterState :=
  let inx := s.intents intentId
  if inx.user ≠ caller then .error .NotIntentOwner
  else if inx.status ≠ IntentStatus.Open then .error .InvalidStatus
  else
    bindT (tokenTransfer s.balances inx.tokenIn s.self inx.user inx.amountIn) fun b1 =>
      .ok { s with
            intents := fun i => if i = intentId then
                { inx with status := IntentStatus.Cancelled }
              else s.intents i,
            balances := b1 }

/-- markExpired: anyone may expire an Open intent strictly after its
deadline; the escrowed amountIn returns to the intent user. -/
def markExpired (s : RouterState) (intentId now : Nat) :
    Except RouterError RouterState :=
  let inx := s.intents intentId
  if inx.status ≠ IntentStatus.Open then .error .InvalidStatus
  else if now ≤ inx.deadline then .error .InvalidIntent
  else
    bindT (tokenTransfer s.balances inx.tokenIn s.self inx.user inx.amountIn) fun b1 =>
      .ok { s with
            intents := fun i => if i = intentId then
                { inx with status := IntentStatus.Expired }
              else s.intents i,
            balances := b1 }

/-- setSolver: owner toggles solver approval. -/
def setSolver (s : RouterState) (caller solver : Nat) (approved : Bool) :
    Except RouterError RouterState :=
  if caller ≠ s.owner then .error .NotOwner
  else .ok { s with approvedSolvers := fun a =>
               if a = solver then approved else s.approvedSolvers a }

/-- setProtocolFeeBps: owner sets the fee, capped at 100 bps. -/
def setProtocolFeeBps (s : RouterState) (caller bps : Nat) :
    Except RouterError RouterState :=
  if caller ≠ s.owner then .error .NotOwner
  else if 100 < bps then .error .RequireFailed
  else .ok { s with protocolFeeBps := bps }

/-- setFeeRecipient: owner sets a non-zero fee recipient. -/
def setFeeRecipient (s : RouterState) (caller newRecipient : Nat) :
    Except RouterError RouterState :=
  if caller ≠ s.owner then .error .NotOwner
  else if newRecipient = 0 then .error .RequireFailed
  else .ok { s with feeRecipient := newRecipient }

/-- transferOwnership: owner hands the admin role to a non-zero
address. -/
def transferOwnership (s : RouterState) (caller newOwner : Nat) :
    Except RouterError RouterState :=
  if caller ≠ s.owner then .error .NotOwner
  else if newOwner = 0 then .error .RequireFailed
  else .ok { s with owner := newOwner }

/-- Reachable router states: the constructor state, closed under every
external entry point of the contract, and under arbitrary external ERC20
activity (mints and transfers that do not involve the router occur
outside the contract and may rewrite the balance sheet). -/
inductive Reachable : RouterState → Prop
  | init (deployer feeRecip selfAddr : Nat) (bal : Balances) :
      Reachable (initialState deployer feeRecip selfAddr bal)
  | create {s : RouterState} {r : Nat × RouterState}
      (caller tokenIn tokenOut amountIn minAmountOut maxSlippageBps
        maxGasWei deadline now : Nat) :
      Reachable s →
      createIntent s caller tokenIn tokenOut amountIn minAmountOut
        maxSlippageBps maxGasWei deadline now = .ok r →
      Reachable r.2
  | fill {s t : RouterState} (caller intentId amountOut execHash now : Nat) :
      Reachable s → fillIntent s caller intentId amountOut execHash now = .ok t →
      Reachable t
  | cancel {s t : RouterState} (caller intentId : Nat) :
      Reachable s → cancelIntent s caller intentId = .ok t → Reachable t
  | expire {s t : RouterState} (intentId now : Nat) :
      Reachable s → markExpired s intentId now = .ok t → Reachable t
  | solverSet {s t : RouterState} (caller solver : Nat) (approved : Bool) :
      Reachable s → setSolver s caller solver approved = .ok t → Reachable t
  | feeSet {s t : RouterState} (caller bps : Nat) :
      Reachable s → setProtocolFeeBps s caller bps = .ok t → Reachable t
  | recipientSet {s t : RouterState} (caller newRecipient : Nat) :
      Reachable s → setFeeRecipient s caller newRecipient = .ok t → Reachable t
  | ownerSet {s t : RouterState} (caller newOwner : Nat) :
      Reachable s → transferOwnership s caller newOwner = .ok t → Reachable t
  | externalTokens {s : RouterState} (bal : Balances) :
      Reachable s → Reachable { s with balances := bal }

/-! Helper lemmas about the balance primitives. -/

theorem setBal_same (bal : Balances) (token acct v : Nat) :
    setBal bal token acct v token acct = v := by
  simp [setBal]

theorem setBal_other (bal : Balances) (token acct v t a : Nat)
    (h : ¬(t = token ∧ a = acct)) : setBal bal token acct v t a = bal t a := by
  unfold setBal
  rw [if_neg h]

theorem tokenTransfer_some_iff (bal : Balances) (token frm dst amt : Nat)
    (b : Balances) :
    tokenTransfer bal token frm dst amt = some b ↔
      amt ≤ bal token frm ∧
      setBal bal token frm (bal token frm - amt) token dst + amt < UINT256 ∧
      b = setBal (setBal bal token frm (bal token frm - amt)) token dst
            (setBal bal token frm (bal token frm - amt) token dst + amt) := by
  unfold tokenTransfer
  constructor
  · intro h
    split at h
    · split at h
      · injection h with h3
        exact ⟨by assumption, by assumption, h3.symm⟩
      · cases h
    · cases h
  · rintro ⟨h1, h2, h3⟩
    rw [if_pos h1, if_pos h2, h3]

theorem bindT_some {α : Type} (b : Balances) (k : Balances → Except RouterError α) :
    bindT (some b) k = k b := rfl

theorem bindT_none {α : Type} (k : Balances → Except RouterError α) :
    bindT none k = .error .TransferFailed := rfl

theorem bindT_ok {α : Type} (r : Option Balances) (k : Balances → Except RouterError α)
    (v : α) (h : bindT r k = .ok v) : ∃ b, r = some b ∧ k b = .ok v := by
  cases r with
  | none => exact absurd h (by simp [bindT])
  | some b => exact ⟨b, rfl, h⟩

/-- C2: once an intent is in a terminal status (Filled, Cancelled or
Expired, i.e. anything other than Open), every further fillIntent,
cancelIntent or markExpired call on it reverts: the call can never
succeed, and as soon as the operation's own caller checks pass
(approved solver for fill, intent user for cancel; markExpired has
none) the revert reason is exactly InvalidStatus.  A reverted call
returns Except.error, which by construction of the model leaves the
intent record and every token balance unchanged. -/
theorem terminalStateRejects (s : RouterState) (intentId : Nat)
    (hterm : (s.intents intentId).status ≠ IntentStatus.Open) :
    (∀ caller amountOut execHash now,
        ∃ e, fillIntent s caller intentId amountOut execHash now = .error e) ∧
    (∀ caller amountOut execHash now, s.approvedSolvers caller = true →
        fillIntent s caller intentId amountOut execHash now = .error .InvalidStatus) ∧
    (∀ caller, ∃ e, cancelIntent s caller intentId = .error e) ∧
    (∀ caller, (s.intents intentId).user = caller →
        cancelIntent s caller intentId = .error .InvalidStatus) ∧
    (∀ now, markExpired s intentId now = .error .InvalidStatus) := by
  refine ⟨?_, ?_, ?_, ?_, ?_⟩
  · intro caller amountOut execHash now
    cases h : s.approvedSolvers caller
    · exact ⟨.SolverNotApproved, by simp [fillIntent, h]⟩
    · exact ⟨.InvalidStatus, by simp [fillIntent, h, hterm]⟩
  · intro caller amountOut execHash now happr
    simp [fillIntent, happr, hterm]
  · intro caller
    by_cases h : (s.intents intentId).user = caller
    · exact ⟨.InvalidStatus, by simp [cancelIntent, h, hterm]⟩
    · exact ⟨.NotIntentOwner, by simp [cancelIntent, h]⟩
  · intro caller h
    simp [cancelIntent, h, hterm]
  · intro now
    simp [markExpired, hterm]

/-- Concrete state used by the C2 witness: intent 1 is Filled, solver 2
is approved, the user of intent 1 is address 1. -/
def exC2 : RouterState :=
  { self := 4, nextIntentId := 2, protocolFeeBps := 10, feeRecipient := 3,
    owner := 0,
    intents := fun i => if i = 1 then
        { user := 1, tokenIn := 10, tokenOut := 11, amountIn := 100,
          minAmountOut := 95, maxSlippageBps := 200, maxGasWei := 50,
          deadline := 1000, status := IntentStatus.Filled,
          winningSolver := 2, amountOut := 98, executionHash := 7 }
      else zeroIntent,
    approvedSolvers := fun a => a = 2,
    balances := fun _ _ => 0 }

/-- Witness for C2 at a concrete Filled intent. -/
theorem terminalStateRejects_witness :
    fillIntent exC2 2 1 1000 7 5 = .error .InvalidStatus ∧
    cancelIntent exC2 1 1 = .error .InvalidStatus ∧
    markExpired exC2 1 2000 = .error .InvalidStatus := by
  have h := terminalStateRejects exC2 1 (by decide)
  exact ⟨h.2.1 2 1000 7 5 (by decide), h.2.2.2.1 1 (by decide), h.2.2.2.2 2000⟩

theorem setBal_read (bal : Balances) (token acct v t a : Nat) :
    setBal bal token acct v t a = if t = token ∧ a = acct then v else bal t a := rfl

theorem tokenTransfer_eq_some (bal : Balances) (token frm dst amt : Nat)
    (h1 : amt ≤ bal token frm)
    (h2 : setBal bal token frm (bal token frm - amt) token dst + amt < UINT256) :
    tokenTransfer bal token frm dst amt =
      some (setBal (setBal bal token frm (bal token frm - amt)) token dst
        (setBal bal token frm (bal token frm - amt) token dst + amt)) := by
  unfold tokenTransfer
  rw [if_pos h1, if_pos h2]

/-- A fill whose every precondition is satisfied (approved solver, Open
status, deadline not passed, output at least the minimum, fee
multiplication within uint256, fee bps at most 10000, pairwise distinct
parties and contract, distinct tokens, sufficient filler and escrow
balances, no receiver overflow) succeeds. -/
theorem fillIntent_ok (s : RouterState) (caller intentId amountOut execHash now : Nat)
    (hopen : (s.intents intentId).status = IntentStatus.Open)
    (happr : s.approvedSolvers caller = true)
    (hnow : now ≤ (s.intents intentId).deadline)
    (hmin : (s.intents intentId).minAmountOut ≤ amountOut)
    (hbps : s.protocolFeeBps ≤ 10000)
    (hfeeOk : amountOut * s.protocolFeeBps < UINT256)
    (hcv : caller ≠ s.self)
    (huv : (s.intents intentId).user ≠ s.self)
    (huc : (s.intents intentId).user ≠ caller)
    (hrv : s.feeRecipient ≠ s.self)
    (hrc : s.feeRecipient ≠ caller)
    (hur : (s.intents intentId).user ≠ s.feeRecipient)
    (htok : (s.intents intentId).tokenIn ≠ (s.intents intentId).tokenOut)
    (hbOut : amountOut ≤ s.balances (s.intents intentId).tokenOut caller)
    (hbIn : (s.intents intentId).amountIn ≤ s.balances (s.intents intentId).tokenIn s.self)
    (hOv1 : s.balances (s.intents intentId).tokenOut s.self + amountOut < UINT256)
    (hOv2 : s.balances (s.intents intentId).tokenOut (s.intents intentId).user + amountOut < UINT256)
    (hOv3 : s.balances (s.intents intentId).tokenOut s.feeRecipient + amountOut < UINT256)
    (hOv4 : s.balances (s.intents intentId).tokenIn caller + (s.intents intentId).amountIn < UINT256) :
    (fillIntent s caller intentId amountOut execHash now).isOk = true := by
  have hfeeLe : amountOut * s.protocolFeeBps / 10000 ≤ amountOut := by
    calc amountOut * s.protocolFeeBps / 10000 ≤ amountOut * 10000 / 10000 :=
          Nat.div_le_div_right (Nat.mul_le_mul_left _ hbps)
      _ = amountOut := by omega
  simp only [fillIntent]
  rw [if_neg (by simp [happr])]
  rw [if_neg (by simp [hopen])]
  rw [if_neg (by omega : ¬ ((s.intents intentId).deadline < now))]
  rw [if_neg (by omega : ¬ (amountOut < (s.intents intentId).minAmountOut))]
  rw [if_neg (by omega : ¬ (UINT256 ≤ amountOut * s.protocolFeeBps))]
  rw [if_neg (by omega : ¬ (amountOut < amountOut * s.protocolFeeBps / 10000))]
  set bal := s.balances with hbal
  set tO := (s.intents intentId).tokenOut with htOdef
  set tI := (s.intents intentId).tokenIn with htIdef
  set u := (s.intents intentId).user with hudef
  set v := s.self with hvdef
  set r := s.feeRecipient with hrdef
  set fee := amountOut * s.protocolFeeBps / 10000 with hfee
  set aIn := (s.intents intentId).amountIn with haIn
  cases h1 : tokenTransfer bal tO caller v amountOut with
  | none =>
      rw [tokenTransfer_eq_some bal tO caller v amountOut hbOut
        (by simp [setBal_read, htok, htok.symm, hcv, hcv.symm, huv, huv.symm, huc, huc.symm, hrv, hrv.symm, hrc, hrc.symm, hur, hur.symm, htok.symm, hcv, hcv.symm, huv, huv.symm, huc, huc.symm, hrv, hrv.symm, hrc, hrc.symm, hur, hur.symm]; omega)] at h1
      cases h1
  | some b1 =>
      obtain ⟨-, -, hb1⟩ := (tokenTransfer_some_iff _ _ _ _ _ _).mp h1
      subst hb1
      simp only [h1, bindT_some]
      cases h2 : tokenTransfer _ tO v u (amountOut - fee) with
      | none =>
          rw [tokenTransfer_eq_some _ _ _ _ _
            (by simp [setBal_read, htok, htok.symm, hcv, hcv.symm, huv, huv.symm, huc, huc.symm, hrv, hrv.symm, hrc, hrc.symm, hur, hur.symm, htok.symm, hcv, hcv.symm, huv, huv.symm, huc, huc.symm, hrv, hrv.symm, hrc, hrc.symm, hur, hur.symm]; omega)
            (by simp [setBal_read, htok, htok.symm, hcv, hcv.symm, huv, huv.symm, huc, huc.symm, hrv, hrv.symm, hrc, hrc.symm, hur, hur.symm, htok.symm, hcv, hcv.symm, huv, huv.symm, huc, huc.symm, hrv, hrv.symm, hrc, hrc.symm, hur, hur.symm]; omega)] at h2
          cases h2
      | some b2 =>
          obtain ⟨-, -, hb2⟩ := (tokenTransfer_some_iff _ _ _ _ _ _).mp h2
          subst hb2
          simp only [h2, bindT_some]
          by_cases hf : fee = 0
          · rw [if_pos hf]
            simp only [bindT_some]
            cases h4 : tokenTransfer _ tI v caller aIn with
            | none =>
                rw [tokenTransfer_eq_some _ _ _ _ _
                  (by simp [setBal_read, htok, htok.symm, hcv, hcv.symm, huv, huv.symm, huc, huc.symm, hrv, hrv.symm, hrc, hrc.symm, hur, hur.symm]; omega)
                  (by simp [setBal_read, htok, htok.symm, hcv, hcv.symm, huv, huv.symm, huc, huc.symm, hrv, hrv.symm, hrc, hrc.symm, hur, hur.symm]; omega)] at h4
                cases h4
            | some b4 =>
                simp only [h4, bindT_some]
                rfl
          · rw [if_neg hf]
            cases h3 : tokenTransfer _ tO v r fee with
            | none =>
                rw [tokenTransfer_eq_some _ _ _ _ _
                  (by simp [setBal_read, htok, htok.symm, hcv, hcv.symm, huv, huv.symm, huc, huc.symm, hrv, hrv.symm, hrc, hrc.symm, hur, hur.symm]; omega)
                  (by simp [setBal_read, htok, htok.symm, hcv, hcv.symm, huv, huv.symm, huc, huc.symm, hrv, hrv.symm, hrc, hrc.symm, hur, hur.symm]; omega)] at h3
                cases h3
            | some b3 =>
                obtain ⟨-, -, hb3⟩ := (tokenTransfer_some_iff _ _ _ _ _ _).mp h3
                subst hb3
                simp only [h3, bindT_some]
                cases h4 : tokenTransfer _ tI v caller aIn with
                | none =>
                    rw [tokenTransfer_eq_some _ _ _ _ _
                      (by simp [setBal_read, htok, htok.symm, hcv, hcv.symm, huv, huv.symm, huc, huc.symm, hrv, hrv.symm, hrc, hrc.symm, hur, hur.symm]; omega)
                      (by simp [setBal_read, htok, htok.symm, hcv, hcv.symm, huv, huv.symm, huc, huc.symm, hrv, hrv.symm, hrc, hrc.symm, hur, hur.symm]; omega)] at h4
                    cases h4
                | some b4 =>
                    simp only [h4, bindT_some]
                    rfl

/-- C3: deadline boundary for an Open intent with stored deadline D.
With every other fill precondition satisfied, fillIntent at now = D
succeeds; fillIntent at now = D + 1 reverts with DeadlinePassed;
markExpired at now = D reverts with InvalidIntent; markExpired at
now = D + 1 succeeds. -/
theorem deadlineBoundary (s : RouterState) (caller intentId amountOut execHash : Nat)
    (hopen : (s.intents intentId).status = IntentStatus.Open)
    (happr : s.approvedSolvers caller = true)
    (hmin : (s.intents intentId).minAmountOut ≤ amountOut)
    (hbps : s.protocolFeeBps ≤ 10000)
    (hfeeOk : amountOut * s.protocolFeeBps < UINT256)
    (hcv : caller ≠ s.self)
    (huv : (s.intents intentId).user ≠ s.self)
    (huc : (s.intents intentId).user ≠ caller)
    (hrv : s.feeRecipient ≠ s.self)
    (hrc : s.feeRecipient ≠ caller)
    (hur : (s.intents intentId).user ≠ s.feeRecipient)
    (htok : (s.intents intentId).tokenIn ≠ (s.intents intentId).tokenOut)
    (hbOut : amountOut ≤ s.balances (s.intents intentId).tokenOut caller)
    (hbIn : (s.intents intentId).amountIn ≤ s.balances (s.intents intentId).tokenIn s.self)
    (hOv1 : s.balances (s.intents intentId).tokenOut s.self + amountOut < UINT256)
    (hOv2 : s.balances (s.intents intentId).tokenOut (s.intents intentId).user + amountOut < UINT256)
    (hOv3 : s.balances (s.intents intentId).tokenOut s.feeRecipient + amountOut < UINT256)
    (hOv4 : s.balances (s.intents intentId).tokenIn caller + (s.intents intentId).amountIn < UINT256)
    (hOv5 : s.balances (s.intents intentId).tokenIn (s.intents intentId).user + (s.intents intentId).amountIn < UINT256) :
    (fillIntent s caller intentId amountOut execHash (s.intents intentId).deadline).isOk = true ∧
    fillIntent s caller intentId amountOut execHash ((s.intents intentId).deadline + 1) =
      .error .DeadlinePassed ∧
    markExpired s intentId (s.intents intentId).deadline = .error .InvalidIntent ∧
    (markExpired s intentId ((s.intents intentId).deadline + 1)).isOk = true := by
  refine ⟨?_, ?_, ?_, ?_⟩
  · exact fillIntent_ok s caller intentId amountOut execHash _ hopen happr le_rfl hmin
      hbps hfeeOk hcv huv huc hrv hrc hur htok hbOut hbIn hOv1 hOv2 hOv3 hOv4
  · simp only [fillIntent]
    rw [if_neg (by simp [happr])]
    rw [if_neg (by simp [hopen])]
    rw [if_pos (Nat.lt_succ_self _)]
  · simp only [markExpired]
    rw [if_neg (by simp [hopen])]
    rw [if_pos le_rfl]
  · simp only [markExpired]
    rw [if_neg (by simp [hopen])]
    rw [if_neg (by omega : ¬ ((s.intents intentId).deadline + 1 ≤ (s.intents intentId).deadline))]
    cases h1 : tokenTransfer s.balances (s.intents intentId).tokenIn s.self
        (s.intents intentId).user (s.intents intentId).amountIn with
    | none =>
        rw [tokenTransfer_eq_some _ _ _ _ _ hbIn
          (by simp [setBal_read, huv, huv.symm]; omega)] at h1
        cases h1
    | some b1 =>
        simp only [h1, bindT_some]
        rfl

/-- Concrete state for the C3 and C1 witnesses: intent 1 is Open with
deadline 1000, solver 2 is approved, the router (address 4) escrows 100
of token 10, solver 2 holds 1000 of token 11. -/
def exC3 : RouterState :=
  { self := 4, nextIntentId := 2, protocolFeeBps := 10, feeRecipient := 3,
    owner := 0,
    intents := fun i => if i = 1 then
        { user := 1, tokenIn := 10, tokenOut := 11, amountIn := 100,
          minAmountOut := 95, maxSlippageBps := 200, maxGasWei := 50,
          deadline := 1000, status := IntentStatus.Open,
          winningSolver := 0, amountOut := 0, executionHash := 0 }
      else zeroIntent,
    approvedSolvers := fun a => a == 2,
    balances := fun t a =>
      if t = 10 ∧ a = 4 then 100 else if t = 11 ∧ a = 2 then 1000 else 0 }

/-- Witness for C3 at the concrete state exC3 (deadline 1000). -/
theorem deadlineBoundary_witness :
    (fillIntent exC3 2 1 1000 7 1000).isOk = true ∧
    fillIntent exC3 2 1 1000 7 1001 = .error .DeadlinePassed ∧
    markExpired exC3 1 1000 = .error .InvalidIntent ∧
    (markExpired exC3 1 1001).isOk = true :=
  deadlineBoundary exC3 2 1 1000 7 (by decide) (by decide) (by decide) (by decide)
    (by decide) (by decide) (by decide) (by decide) (by decide) (by decide)
    (by decide) (by decide) (by decide) (by decide) (by decide) (by decide)
    (by decide) (by decide) (by decide)

/-- C1: any successful fillIntent pays the intent user exactly
amountOut minus floor(amountOut * protocolFeeBps / 10000) of tokenOut,
pays the fee recipient exactly that floor fee of tokenOut (the fee
transfer being skipped in the code when the fee is zero, which leaves
the same balance), and pays the filler exactly the escrowed amountIn of
tokenIn, in exact integer arithmetic.  The three parties, like in the
repository test fixture, are distinct from each other and from the
router, and the two tokens are distinct, so that each balance delta
observes exactly one transfer leg. -/
theorem fillSettlementExact (s : RouterState) (caller intentId amountOut execHash now : Nat)
    (s2 : RouterState)
    (hok : fillIntent s caller intentId amountOut execHash now = .ok s2)
    (hcv : caller ≠ s.self)
    (huv : (s.intents intentId).user ≠ s.self)
    (huc : (s.intents intentId).user ≠ caller)
    (hrv : s.feeRecipient ≠ s.self)
    (hrc : s.feeRecipient ≠ caller)
    (hur : (s.intents intentId).user ≠ s.feeRecipient)
    (htok : (s.intents intentId).tokenIn ≠ (s.intents intentId).tokenOut) :
    s2.balances (s.intents intentId).tokenOut (s.intents intentId).user =
      s.balances (s.intents intentId).tokenOut (s.intents intentId).user
        + (amountOut - amountOut * s.protocolFeeBps / 10000) ∧
    s2.balances (s.intents intentId).tokenOut s.feeRecipient =
      s.balances (s.intents intentId).tokenOut s.feeRecipient
        + amountOut * s.protocolFeeBps / 10000 ∧
    s2.balances (s.intents intentId).tokenIn caller =
      s.balances (s.intents intentId).tokenIn caller + (s.intents intentId).amountIn := by
  simp only [fillIntent] at hok
  split at hok
  · exact absurd hok (by simp)
  split at hok
  · exact absurd hok (by simp)
  split at hok
  · exact absurd hok (by simp)
  split at hok
  · exact absurd hok (by simp)
  split at hok
  · exact absurd hok (by simp)
  split at hok
  · exact absurd hok (by simp)
  obtain ⟨b1, h1, hok⟩ := bindT_ok _ _ _ hok
  obtain ⟨hle1, hov1, hb1⟩ := (tokenTransfer_some_iff _ _ _ _ _ _).mp h1
  subst hb1
  try dsimp only at hok
  obtain ⟨b2, h2, hok⟩ := bindT_ok _ _ _ hok
  obtain ⟨hle2, hov2, hb2⟩ := (tokenTransfer_some_iff _ _ _ _ _ _).mp h2
  subst hb2
  try dsimp only at hok
  obtain ⟨b3, h3, hok⟩ := bindT_ok _ _ _ hok
  by_cases hf : amountOut * s.protocolFeeBps / 10000 = 0
  · rw [if_pos hf] at h3
    injection h3 with hb3
    subst hb3
    obtain ⟨b4, h4, hok⟩ := bindT_ok _ _ _ hok
    obtain ⟨hle4, hov4, hb4⟩ := (tokenTransfer_some_iff _ _ _ _ _ _).mp h4
    subst hb4
    try dsimp only at hok
    injection hok with hok
    subst hok
    refine ⟨?_, ?_, ?_⟩ <;>
      simp [setBal_read, htok, htok.symm, hcv, hcv.symm, huv, huv.symm, huc,
        huc.symm, hrv, hrv.symm, hrc, hrc.symm, hur, hur.symm, hf]
  · rw [if_neg hf] at h3
    obtain ⟨hle3, hov3, hb3⟩ := (tokenTransfer_some_iff _ _ _ _ _ _).mp h3
    subst hb3
    try dsimp only at hok
    obtain ⟨b4, h4, hok⟩ := bindT_ok _ _ _ hok
    obtain ⟨hle4, hov4, hb4⟩ := (tokenTransfer_some_iff _ _ _ _ _ _).mp h4
    subst hb4
    try dsimp only at hok
    injection hok with hok
    subst hok
    refine ⟨?_, ?_, ?_⟩ <;>
      simp [setBal_read, htok, htok.symm, hcv, hcv.symm, huv, huv.symm, huc,
        huc.symm, hrv, hrv.symm, hrc, hrc.symm, hur, hur.symm]

/-- Witness for C1: a concrete successful fill at exC3 with declared
output 1000 and fee bps 10: the user receives 999, the fee recipient 1,
the filler the escrowed 100. -/
theorem fillSettlementExact_witness :
    (fillIntent exC3 2 1 1000 7 500).map
        (fun t => (t.balances 11 1, t.balances 11 3, t.balances 10 2)) =
      .ok (999, 1, 100) := by
  obtain ⟨s2, hs2⟩ : ∃ t, fillIntent exC3 2 1 1000 7 500 = .ok t := ⟨_, rfl⟩
  have h := fillSettlementExact exC3 2 1 1000 7 500 s2 hs2 (by decide) (by decide)
    (by decide) (by decide) (by decide) (by decide) (by decide)
  rw [hs2]
  simp only [Except.map]
  rw [show ((exC3.intents 1).tokenOut) = 11 from rfl,
      show ((exC3.intents 1).tokenIn) = 10 from rfl,
      show ((exC3.intents 1).user) = 1 from rfl,
      show exC3.feeRecipient = 3 from rfl] at h
  rw [h.1, h.2.1, h.2.2]
  refine congrArg Except.ok ?_
  decide

/-! Preservation of protocolFeeBps by every operation except the setter. -/

theorem createIntent_fee_eq (s : RouterState)
    (caller tokenIn tokenOut amountIn minAmountOut maxSlippageBps maxGasWei
      deadline now : Nat) (r : Nat × RouterState)
    (h : createIntent s caller tokenIn tokenOut amountIn minAmountOut
        maxSlippageBps maxGasWei deadline now = .ok r) :
    r.2.protocolFeeBps = s.protocolFeeBps := by
  simp only [createIntent] at h
  split at h
  · exact absurd h (by simp)
  split at h
  · exact absurd h (by simp)
  split at h
  · exact absurd h (by simp)
  obtain ⟨b1, h1, h⟩ := bindT_ok _ _ _ h
  try dsimp only at h
  injection h with h
  rw [← h]

theorem fillIntent_fee_eq (s : RouterState) (caller intentId amountOut execHash now : Nat)
    (s2 : RouterState) (h : fillIntent s caller intentId amountOut execHash now = .ok s2) :
    s2.protocolFeeBps = s.protocolFeeBps := by
  simp only [fillIntent] at h
  split at h
  · exact absurd h (by simp)
  split at h
  · exact absurd h (by simp)
  split at h
  · exact absurd h (by simp)
  split at h
  · exact absurd h (by simp)
  split at h
  · exact absurd h (by simp)
  split at h
  · exact absurd h (by simp)
  obtain ⟨b1, h1, h⟩ := bindT_ok _ _ _ h
  try dsimp only at h
  obtain ⟨b2, h2, h⟩ := bindT_ok _ _ _ h
  try dsimp only at h
  obtain ⟨b3, h3, h⟩ := bindT_ok _ _ _ h
  try dsimp only at h
  obtain ⟨b4, h4, h⟩ := bindT_ok _ _ _ h
  try dsimp only at h
  injection h with h
  rw [← h]

theorem cancelIntent_fee_eq (s : RouterState) (caller intentId : Nat)
    (s2 : RouterState) (h : cancelIntent s caller intentId = .ok s2) :
    s2.protocolFeeBps = s.protocolFeeBps := by
  simp only [cancelIntent] at h
  split at h
  · exact absurd h (by simp)
  split at h
  · exact absurd h (by simp)
  obtain ⟨b1, h1, h⟩ := bindT_ok _ _ _ h
  try dsimp only at h
  injection h with h
  rw [← h]

theorem markExpired_fee_eq (s : RouterState) (intentId now : Nat)
    (s2 : RouterState) (h : markExpired s intentId now = .ok s2) :
    s2.protocolFeeBps = s.protocolFeeBps := by
  simp only [markExpired] at h
  split at h
  · exact absurd h (by simp)
  split at h
  · exact absurd h (by simp)
  obtain ⟨b1, h1, h⟩ := bindT_ok _ _ _ h
  try dsimp only at h
  injection h with h
  rw [← h]

theorem setSolver_fee_eq (s : RouterState) (caller solver : Nat) (approved : Bool)
    (s2 : RouterState) (h : setSolver s caller solver approved = .ok s2) :
    s2.protocolFeeBps = s.protocolFeeBps := by
  simp only [setSolver] at h
  split at h
  · exact absurd h (by simp)
  injection h with h
  rw [← h]

theorem setFeeRecipient_fee_eq (s : RouterState) (caller newRecipient : Nat)
    (s2 : RouterState) (h : setFeeRecipient s caller newRecipient = .ok s2) :
    s2.protocolFeeBps = s.protocolFeeBps := by
  simp only [setFeeRecipient] at h
  split at h
  · exact absurd h (by simp)
  split at h
  · exact absurd h (by simp)
  injection h with h
  rw [← h]

theorem transferOwnership_fee_eq (s : RouterState) (caller newOwner : Nat)
    (s2 : RouterState) (h : transferOwnership s caller newOwner = .ok s2) :
    s2.protocolFeeBps = s.protocolFeeBps := by
  simp only [transferOwnership] at h
  split at h
  · exact absurd h (by simp)
  split at h
  · exact absurd h (by simp)
  injection h with h
  rw [← h]

theorem setProtocolFeeBps_le (s : RouterState) (caller bps : Nat)
    (s2 : RouterState) (h : setProtocolFeeBps s caller bps = .ok s2) :
    s2.protocolFeeBps ≤ 100 := by
  simp only [setProtocolFeeBps] at h
  split at h
  · exact absurd h (by simp)
  split at h
  · exact absurd h (by simp)
  injection h with h
  rw [← h]
  simp only []
  omega

/-- The load-bearing invariant behind C10: every reachable state keeps
protocolFeeBps at most 100 (the constructor initializes it to 10 and the
setter rejects anything above 100). -/
theorem reachable_fee_le (s : RouterState) (hs : Reachable s) :
    s.protocolFeeBps ≤ 100 := by
  induction hs with
  | init deployer feeRecip selfAddr bal => simp [initialState]
  | create _ _ _ _ _ _ _ _ _ _ h ih => rw [createIntent_fee_eq _ _ _ _ _ _ _ _ _ _ _ h]; exact ih
  | fill _ _ _ _ _ _ h ih => rw [fillIntent_fee_eq _ _ _ _ _ _ _ h]; exact ih
  | cancel _ _ _ h ih => rw [cancelIntent_fee_eq _ _ _ _ h]; exact ih
  | expire _ _ _ h ih => rw [markExpired_fee_eq _ _ _ _ h]; exact ih
  | solverSet _ _ _ _ h ih => rw [setSolver_fee_eq _ _ _ _ _ h]; exact ih
  | feeSet _ _ _ h ih => exact setProtocolFeeBps_le _ _ _ _ h
  | recipientSet _ _ _ h ih => rw [setFeeRecipient_fee_eq _ _ _ _ h]; exact ih
  | ownerSet _ _ _ h ih => rw [transferOwnership_fee_eq _ _ _ _ h]; exact ih
  | externalTokens _ _ ih => exact ih

/-- C10: in every reachable state protocolFeeBps is at most 100, and
consequently in every successful fillIntent the computed fee
floor(amountOut * protocolFeeBps / 10000) is at most amountOut (so the
subtraction amountOut - fee cannot underflow) and the intent user
receives at least 99 percent of the declared output. -/
theorem protocolFeeBound (s : RouterState) (hs : Reachable s) :
    s.protocolFeeBps ≤ 100 ∧
    ∀ caller intentId amountOut execHash now s2,
      fillIntent s caller intentId amountOut execHash now = .ok s2 →
        amountOut * s.protocolFeeBps / 10000 ≤ amountOut ∧
        (amountOut - amountOut * s.protocolFeeBps / 10000) * 100 ≥ 99 * amountOut := by
  have hb := reachable_fee_le s hs
  refine ⟨hb, ?_⟩
  intro caller intentId amountOut execHash now s2 _
  have hmul : amountOut * s.protocolFeeBps ≤ amountOut * 100 :=
    Nat.mul_le_mul_left _ hb
  omega

/-- Balance sheet for the C10 witness: solver 2 holds 2000 of token 0. -/
def exBalC10 : Balances := fun t a => if t = 0 ∧ a = 2 then 2000 else 0

/-- One admin step from the constructor state: fee raised to 50 bps. -/
def exR1 : RouterState := { initialState 0 3 4 exBalC10 with protocolFeeBps := 50 }

/-- A second admin step: solver 2 approved. -/
def exR2 : RouterState :=
  { exR1 with approvedSolvers := fun a => if a = 2 then true else exR1.approvedSolvers a }

/-- Witness for C10 at the reachable state exR2 (fee 50 bps) with a
concrete successful fill of declared output 1000. -/
theorem protocolFeeBound_witness :
    exR2.protocolFeeBps ≤ 100 ∧
    1000 * exR2.protocolFeeBps / 10000 ≤ 1000 ∧
    (1000 - 1000 * exR2.protocolFeeBps / 10000) * 100 ≥ 99 * 1000 := by
  have hr : Reachable exR2 :=
    Reachable.solverSet 0 2 true
      (Reachable.feeSet 0 50 (Reachable.init 0 3 4 exBalC10) rfl) rfl
  have h := protocolFeeBound exR2 hr
  obtain ⟨s2, hs2⟩ : ∃ t, fillIntent exR2 2 99 1000 7 0 = .ok t := ⟨_, rfl⟩
  have h2 := h.2 2 99 1000 7 0 s2 hs2
  exact ⟨h.1, h2.1, h2.2⟩

/-!
Part 2 models the off-ledger solver engine (src/backend/src/solver.ts).
Prices and scores are JS Numbers in the source; they are modeled as ℚ
(exact rationals).  The two transcendental real functions of the source
(the Box-Muller deviate sqrt(-2 ln u1) * cos(2 pi u2) and Math.log1p)
have no computable exact counterpart on ℚ, so they are passed in as an
explicit RealOps parameter; every theorem below holds for all RealOps,
and witnesses instantiate them concretely.  All Date.now() readings
inside one scoreIntent call are modeled as the single argument now (in
milliseconds).  External HTTP lookups (CoinGecko, DexScreener) are
modeled as a PriceEnv of per-call responses, where none models a failed,
rate-limited or empty response.  The SHA-256 execution hash is modeled
by its preimage: the canonical payload record that the source
serializes and hashes, so payload equality models hash equality. -/

/-- Source tag of a cached or reported price. -/
inductive MetaSource
  | coingecko
  | dexscreener
  | fallback
deriving DecidableEq, Repr

/-- Top-level price source classification of a quote. -/
inductive PriceSource
  | live
  | fallback
deriving DecidableEq, Repr

/-- Reliability metadata for one price leg, from type PriceMetadata. -/
structure PriceMetadata where
  source : MetaSource
  timestamp : Nat
  isStale : Bool
  reliabilityScore : ℚ
deriving DecidableEq, Repr

/-- The four deterministic constraint checks of a quote. -/
structure SolverChecks where
  minOutPass : Bool
  gasPass : Bool
  slippagePass : Bool
  priceReliable : Bool
deriving DecidableEq, Repr

/-- Canonical payload of the execution hash: the JSON object the source
serializes and SHA-256 hashes ({solver, tokenIn, tokenOut, amountIn,
expectedOut.toFixed(8), String(expectedGasWei), timestamp: bucket}).
Equality of payloads models equality of hashes. -/
structure ExecPayload where
  solver : String
  tokenIn : String
  tokenOut : String
  amountIn : ℚ
  expectedOutFixed8 : Int
  expectedGasWei : Int
  bucket : Nat
deriving DecidableEq, Repr

/-- An intent as submitted to the solver API, from type IntentInput.
The numeric string fields carry their numeric values. -/
structure IntentInput where
  tokenIn : String
  tokenOut : String
  amountIn : ℚ
  minAmountOut : ℚ
  maxSlippageBps : ℚ
  maxGasWei : ℚ
  deadline : Int
deriving DecidableEq, Repr

/-- One scored proposal, from type SolverQuote.  expectedOutFixed6
models the expectedOut.toFixed(6) string as a scaled integer; the
human-readable reason string of the source is diagnostic only and is
not modeled. -/
structure SolverQuote where
  solver : String
  expectedOutFixed6 : Int
  expectedGasWei : Int
  confidence : ℚ
  score : ℚ
  valid : Bool
  checks : SolverChecks
  impliedSlippageBps : Int
  priceSource : PriceSource
  priceMetaIn : PriceMetadata
  priceMetaOut : PriceMetadata
  route : List String
  executionHash : ExecPayload
deriving DecidableEq, Repr

/-- The two real-valued transcendental functions used by scoreIntent,
abstracted: boxMuller u1 u2 models sqrt(-2 ln u1) * cos(2 pi u2) and
log1p models Math.log1p. -/
structure RealOps where
  boxMuller : ℚ → ℚ → ℚ
  log1p : ℚ → ℚ

/-- TOKEN_TO_CG: the static symbol-to-CoinGecko-id table. -/
def TOKEN_TO_CG : String → Option String := fun s =>
  match s with
  | "weth" => some "ethereum"
  | "eth" => some "ethereum"
  | "usdc" => some "usd-coin"
  | "usdt" => some "tether"
  | "dai" => some "dai"
  | "wbtc" => some "wrapped-bitcoin"
  | "btc" => some "bitcoin"
  | "matic" => some "matic-network"
  | "sol" => some "solana"
  | "avax" => some "avalanche-2"
  | "bnb" => some "binancecoin"
  | "link" => some "chainlink"
  | "uni" => some "uniswap"
  | "aave" => some "aave"
  | "mkr" => some "maker"
  | "crv" => some "curve-dao-token"
  | "arb" => some "arbitrum"
  | "op" => some "optimism"
  | "steth" => some "staked-ether"
  | "cbeth" => some "coinbase-wrapped-staked-eth"
  | "aero" => some "aerodrome-finance"
  | "virtual" => some "virtual-protocol"
  | "degen" => some "degen-base"
  | _ => none

/-- Structural model of JS toLowerCase over the characters of a
string. -/
def lowerStr (s : String) : String := ⟨s.data.map Char.toLower⟩

/-- cgId: map a symbol to its CoinGecko id, defaulting to the lowercased
symbol. -/
def cgId (sym : String) : String :=
  (TOKEN_TO_CG (lowerStr sym)).getD (lowerStr sym)

/-- Hex digit test of the contract address regex. -/
def isHexDigit (c : Char) : Bool :=
  c.isDigit || ('a' ≤ c && c ≤ 'f') || ('A' ≤ c && c ≤ 'F')

/-- isContractAddress: 0x followed by 40 hex digits. -/
def isContractAddress (s : String) : Bool :=
  match s.data with
  | '0' :: 'x' :: rest => rest.length == 40 && rest.all isHexDigit
  | _ => false

/-- FALLBACK: the static reference price table (USD). -/
def FALLBACK : String → Option ℚ := fun s =>
  match s with
  | "ethereum" => some 3200
  | "usd-coin" => some 1
  | "tether" => some 1
  | "dai" => some 1
  | "wrapped-bitcoin" => some 95000
  | "bitcoin" => some 95000
  | "solana" => some 170
  | "avalanche-2" => some 28
  | "binancecoin" => some 600
  | "chainlink" => some 16
  | "uniswap" => some 8
  | "aave" => some 260
  | "maker" => some 1500
  | "arbitrum" => some 0.8
  | "optimism" => some 1.5
  | _ => none

/-- fallback: reference price of a symbol, defaulting to 1. -/
def fallback (sym : String) : ℚ :=
  (FALLBACK (cgId sym)).getD 1

/-- One price cache entry, from interface CacheEntry. -/
structure CacheEntry where
  priceUsd : ℚ
  ts : Nat
  source : MetaSource
deriving DecidableEq, Repr

/-- The 30-second price cache, keyed by CoinGecko id. -/
def Cache : Type := String → Option CacheEntry

/-- Write one cache entry. -/
def setCache (c : Cache) (k : String) (e : CacheEntry) : Cache :=
  fun x => if x = k then some e else c x

/-- The token info cache for contract-address lookups: address key to
(priceUsd or none, timestamp); 60-second TTL. -/
def TokenInfoCache : Type := String → Option (Option ℚ × Nat)

/-- Both module-level caches of solver.ts. -/
structure Caches where
  price : Cache
  tokenInfo : TokenInfoCache

/-- Per-call responses of the external price services: none models a
failed, not-ok or empty response.  cgPair is the one CoinGecko call for
both legs of a pair; cgIn/cgOut the per-symbol CoinGecko calls of
fetchSinglePrice; dexIn/dexOut the DexScreener symbol searches;
caIn/caOut the DexScreener contract-address lookups (the inner Option
is the priceUsd field of the returned token info, none when not
positive). -/
structure PriceEnv where
  cgPair : Option (Option ℚ × Option ℚ)
  cgIn : Option ℚ
  cgOut : Option ℚ
  dexIn : Option ℚ
  dexOut : Option ℚ
  caIn : Option (Option ℚ)
  caOut : Option (Option ℚ)

/-- buildPriceMeta: fallback tier when no entry or the fallback price
was used; otherwise reliability 1.0 for fresh CoinGecko data, 0.8 for
fresh DexScreener data, 0.4 when older than the 2-minute staleness
threshold. -/
def buildPriceMeta (entry : Option CacheEntry) (fallbackUsed : Bool) (now : Nat) :
    PriceMetadata :=
  if entry.isNone || fallbackUsed then
    { source := MetaSource.fallback, timestamp := now, isStale := true,
      reliabilityScore := 0.2 }
  else
    let e := entry.getD { priceUsd := 0, ts := 0, source := MetaSource.fallback }
    let isStale := decide (120000 < now - e.ts)
    { source := e.source, timestamp := e.ts, isStale := isStale,
      reliabilityScore :=
        if isStale then 0.4 else if e.source = MetaSource.coingecko then 1 else 0.8 }

/-- resolveContractAddress: serve from the token info cache within its
60-second TTL, else consult DexScreener (the env response) and cache
what was obtained; a failed request caches nothing and yields none. -/
def resolveContractAddress (resp : Option (Option ℚ)) (tic : TokenInfoCache)
    (now : Nat) (address : String) : Option ℚ × TokenInfoCache :=
  let key := lowerStr address
  match tic key with
  | some (p, ts) =>
      if now - ts < 60000 then (p, tic)
      else
        match resp with
        | none => (none, tic)
        | some pUsd => (pUsd, fun x => if x = key then some (pUsd, now) else tic x)
  | none =>
      match resp with
      | none => (none, tic)
      | some pUsd => (pUsd, fun x => if x = key then some (pUsd, now) else tic x)

/-- fetchSinglePrice: cache hit within the 30-second TTL, else CoinGecko,
else DexScreener (caching either), else the stale cached value if any. -/
def fetchSinglePrice (cgResp dexResp : Option ℚ) (cache : Cache) (now : Nat)
    (sym : String) : Option ℚ × Cache :=
  let id := cgId sym
  match cache id with
  | some c =>
      if now - c.ts < 30000 then (some c.priceUsd, cache)
      else
        match cgResp with
        | some p => (some p, setCache cache id ⟨p, now, MetaSource.coingecko⟩)
        | none =>
          match dexResp with
          | some d => (some d, setCache cache id ⟨d, now, MetaSource.dexscreener⟩)
          | none => (some c.priceUsd, cache)
  | none =>
      match cgResp with
      | some p => (some p, setCache cache id ⟨p, now, MetaSource.coingecko⟩)
      | none =>
        match dexResp with
        | some d => (some d, setCache cache id ⟨d, now, MetaSource.dexscreener⟩)
        | none => (none, cache)

/-- Freshness of a cache entry under the 30-second TTL. -/
def freshAt (e : Option CacheEntry) (now : Nat) : Bool :=
  match e with
  | some c => decide (now - c.ts < 30000)
  | none => false

/-- The trailing fallback block of fetchPair: prefer the cached value
(of any age), else the DexScreener search result, re-caching whatever
was obtained under the dexscreener tag. -/
def fetchPairFallback (dexIn dexOut : Option ℚ) (cIn cOut : Option CacheEntry)
    (idIn idOut : String) (cache : Cache) (tic : TokenInfoCache) (now : Nat) :
    (Option ℚ × Option ℚ) × Cache × TokenInfoCache :=
  let priceIn := match cIn with
    | some c => some c.priceUsd
    | none => dexIn
  let priceOut := match cOut with
    | some c => some c.priceUsd
    | none => dexOut
  let cache1 := match priceIn with
    | some p => setCache cache idIn ⟨p, now, MetaSource.dexscreener⟩
    | none => cache
  let cache2 := match priceOut with
    | some p => setCache cache1 idOut ⟨p, now, MetaSource.dexscreener⟩
    | none => cache1
  ((priceIn, priceOut), cache2, tic)

/-- fetchPair: contract addresses go through DexScreener-based
resolution; known-symbol pairs are served from fresh cache, else one
CoinGecko pair call, else the per-leg fallback flow. -/
def fetchPair (env : PriceEnv) (cache : Cache) (tic : TokenInfoCache) (now : Nat)
    (tIn tOut : String) : (Option ℚ × Option ℚ) × Cache × TokenInfoCache :=
  if isContractAddress tIn || isContractAddress tOut then
    let rIn :=
      if isContractAddress tIn then
        let z := resolveContractAddress env.caIn tic now tIn
        (z.1, cache, z.2)
      else
        let z := fetchSinglePrice env.cgIn env.dexIn cache now tIn
        (z.1, z.2, tic)
    let rOut :=
      if isContractAddress tOut then
        let z := resolveContractAddress env.caOut rIn.2.2 now tOut
        (z.1, rIn.2.1, z.2)
      else
        let z := fetchSinglePrice env.cgOut env.dexOut rIn.2.1 now tOut
        (z.1, z.2, rIn.2.2)
    ((rIn.1, rOut.1), rOut.2.1, rOut.2.2)
  else
    let idIn := cgId tIn
    let idOut := cgId tOut
    let cIn := cache idIn
    let cOut := cache idOut
    if freshAt cIn now && freshAt cOut now then
      ((cIn.map (fun c => c.priceUsd), cOut.map (fun c => c.priceUsd)), cache, tic)
    else
      match env.cgPair with
      | some (pIn, pOut) =>
          let cache1 := match pIn with
            | some p => setCache cache idIn ⟨p, now, MetaSource.coingecko⟩
            | none => cache
          let cache2 := match pOut with
            | some p => setCache cache1 idOut ⟨p, now, MetaSource.coingecko⟩
            | none => cache1
          if pIn.isSome && pOut.isSome then ((pIn, pOut), cache2, tic)
          else fetchPairFallback env.dexIn env.dexOut cIn cOut idIn idOut cache2 tic now
      | none => fetchPairFallback env.dexIn env.dexOut cIn cOut idIn idOut cache tic now

/-- The sanity bound of scoreIntent: a resolved price deviating by more
than a factor of 20 from a positive reference price is discarded. -/
def sanePrice (raw : Option ℚ) (fb : ℚ) : Option ℚ :=
  match raw with
  | some p => if 0 < fb ∧ (20 < p / fb ∨ p / fb < 1 / 20) then none else some p
  | none => none

/-- 32-bit word bound. -/
def U32 : Nat := 2 ^ 32

/-- Math.imul: 32-bit multiplication on the unsigned representation. -/
def imul32 (a b : Nat) : Nat := a * b % U32

/-- Arithmetic right shift by 17 of an int32 given by its unsigned
representation. -/
def sar17 (h : Nat) : Nat :=
  if h < 2 ^ 31 then h / 2 ^ 17 else h / 2 ^ 17 + (U32 - 2 ^ 15)

/-- FNV-1a seeding of the xorshift generator over the seed string. -/
def seedInit (seed : String) : Nat :=
  seed.data.foldl (fun h c => imul32 (Nat.xor h (c.toNat % U32)) 16777619) 2166136261

/-- One xorshift step: h ^= h << 13; h ^= h >> 17; h ^= h << 5, on
int32 with JS semantics (logical left shifts mod 2^32, arithmetic right
shift). -/
def xorshiftStep (h : Nat) : Nat :=
  let h1 := Nat.xor h (h * 2 ^ 13 % U32)
  let h2 := Nat.xor h1 (sar17 h1)
  Nat.xor h2 (h2 * 2 ^ 5 % U32)

/-- One draw of the seeded generator: the next state and the value
((h >>> 0) % 10000) / 10000. -/
def randNext (h : Nat) : ℚ × Nat :=
  let h3 := xorshiftStep h
  (((h3 % 10000 : Nat) : ℚ) / 10000, h3)

/-- Solver personality profile, from interface Profile. -/
structure Profile where
  label : String
  priceEdgeMean : ℚ
  priceEdgeStd : ℚ
  baseGas : ℚ
  gasVar : ℚ
  baseConf : ℚ
  route : List String
deriving DecidableEq, Repr

/-- PROFILES: the static solver registry. -/
def PROFILES : String → Option Profile := fun s =>
  match s with
  | "solver-alpha" => some
      { label := "Speed-optimized", priceEdgeMean := 0.998, priceEdgeStd := 0.001,
        baseGas := 21000000000000, gasVar := 3000000000000, baseConf := 0.88,
        route := ["UniV3-Direct"] }
  | "solver-beta" => some
      { label := "Price-optimized", priceEdgeMean := 1.003, priceEdgeStd := 0.002,
        baseGas := 38000000000000, gasVar := 6000000000000, baseConf := 0.82,
        route := ["UniV3-Pool", "CurveTriCrypto", "BalancerWeighted"] }
  | "solver-gamma" => some
      { label := "Balanced", priceEdgeMean := 1.001, priceEdgeStd := 0.0015,
        baseGas := 28000000000000, gasVar := 4000000000000, baseConf := 0.85,
        route := ["UniV3-Pool", "SushiV2"] }
  | _ => none

/-- DEFAULT_PROFILE for unknown solver names. -/
def DEFAULT_PROFILE : Profile :=
  { label := "Unknown", priceEdgeMean := 0.999, priceEdgeStd := 0.002,
    baseGas := 30000000000000, gasVar := 5000000000000, baseConf := 0.80,
    route := ["GenericAMM"] }

/-- Number(x.toFixed(d)) as a scaled integer, for the nonnegative values
the source applies it to (round half up at d decimals). -/
def toFixedInt (d : Nat) (q : ℚ) : Int := ⌊q * (10 : ℚ) ^ d + 1 / 2⌋

/-- Number(x.toFixed(2)). -/
def round2 (q : ℚ) : ℚ := ((toFixedInt 2 q : ℚ)) / 100

/-- Number(x.toFixed(3)). -/
def round3 (q : ℚ) : ℚ := ((toFixedInt 3 q : ℚ)) / 1000

/-- Math.round for the nonnegative values it is applied to. -/
def jsRound (q : ℚ) : Int := ⌊q + 1 / 2⌋

/-- The pure tail of scoreIntent after price resolution: sanity-bound
the raw prices against the reference, build metadata from the post-fetch
cache, draw the seeded per-bucket deviates, evaluate the four checks and
the composite score, and assemble the quote with its canonical execution
payload. -/
def scoreWithPrices (ops : RealOps) (rawIn rawOut : Option ℚ) (cache1 : Cache)
    (now : Nat) (intent : IntentInput) (solver : String) : SolverQuote :=
  let p := (PROFILES solver).getD DEFAULT_PROFILE
  let bucket := now / 30000
  let seed := solver ++ ":" ++ intent.tokenIn ++ ":" ++ intent.tokenOut ++ ":" ++
    toString intent.amountIn ++ ":" ++ toString bucket
  let h0 := seedInit seed
  let fbIn := fallback intent.tokenIn
  let fbOut := fallback intent.tokenOut
  let saneIn := sanePrice rawIn fbIn
  let saneOut := sanePrice rawOut fbOut
  let pIn := saneIn.getD fbIn
  let pOut := saneOut.getD fbOut
  let idIn := if isContractAddress intent.tokenIn then lowerStr intent.tokenIn
    else cgId intent.tokenIn
  let idOut := if isContractAddress intent.tokenOut then lowerStr intent.tokenOut
    else cgId intent.tokenOut
  let metaIn := buildPriceMeta (cache1 idIn) saneIn.isNone now
  let metaOut := buildPriceMeta (cache1 idOut) saneOut.isNone now
  let amountIn := intent.amountIn
  let fairOut := if 0 < pOut then amountIn * pIn / pOut else amountIn
  let d1 := randNext h0
  let u1 := max (1 / 10000000000) d1.1
  let d2 := randNext d1.2
  let z := ops.boxMuller u1 d2.1
  let edge := p.priceEdgeMean + z * p.priceEdgeStd
  let expectedOut := fairOut * edge
  let d3 := randNext d2.2
  let gasJitter := d3.1 * p.gasVar
  let expectedGasWei : Int := ⌊p.baseGas + gasJitter⌋
  let minOutPass := decide (intent.minAmountOut ≤ expectedOut)
  let gasPass := decide ((expectedGasWei : ℚ) ≤ intent.maxGasWei)
  let impliedSlippageBps : Int :=
    if 0 < fairOut then jsRound (max 0 (1 - expectedOut / fairOut) * 10000) else 0
  let slippagePass := decide ((impliedSlippageBps : ℚ) ≤ intent.maxSlippageBps)
  let priceReliable := decide ((1 : ℚ) / 2 ≤ metaIn.reliabilityScore) &&
    decide ((1 : ℚ) / 2 ≤ metaOut.reliabilityScore)
  let valid := minOutPass && gasPass && slippagePass && priceReliable
  let dataBonus : ℚ := if saneIn.isSome && saneOut.isSome then 0.05 else -0.05
  let d4 := randNext d3.2
  let confidence := min 0.99 (max 0.5 (p.baseConf + dataBonus + (d4.1 - 0.5) * 0.06))
  let minOut := intent.minAmountOut
  let maxGas := intent.maxGasWei
  let priceRatio := if 0 < minOut then expectedOut / minOut else 1
  let priceScore :=
    if minOutPass then 0.5 + min 0.5 (ops.log1p (max 0 (priceRatio - 1) * 10) * 0.25)
    else max 0 (0.3 * priceRatio)
  let gasScore :=
    if decide (0 < maxGas) && gasPass then 0.5 + 0.5 * (1 - (expectedGasWei : ℚ) / maxGas)
    else if gasPass then (0.5 : ℚ) else 0.1
  let score := max 0 (min 0.99 (priceScore * 0.5 + gasScore * 0.3 + confidence * 0.2))
  let srcTag := if saneIn.isSome && saneOut.isSome then PriceSource.live
    else PriceSource.fallback
  { solver := solver, expectedOutFixed6 := toFixedInt 6 expectedOut,
    expectedGasWei := expectedGasWei,
    confidence := round2 confidence, score := round3 score, valid := valid,
    checks := { minOutPass := minOutPass, gasPass := gasPass,
                slippagePass := slippagePass, priceReliable := priceReliable },
    impliedSlippageBps := impliedSlippageBps, priceSource := srcTag,
    priceMetaIn := metaIn, priceMetaOut := metaOut, route := p.route,
    executionHash :=
      { solver := solver, tokenIn := intent.tokenIn, tokenOut := intent.tokenOut,
        amountIn := intent.amountIn, expectedOutFixed8 := toFixedInt 8 expectedOut,
        expectedGasWei := expectedGasWei, bucket := bucket } }

/-- scoreIntent: resolve prices for the pair (updating the caches), then
score, always producing one quote. -/
def scoreIntent (ops : RealOps) (env : PriceEnv) (cs : Caches) (now : Nat)
    (intent : IntentInput) (solver : String) : SolverQuote × Caches :=
  let fp := fetchPair env cs.price cs.tokenInfo now intent.tokenIn intent.tokenOut
  (scoreWithPrices ops fp.1.1 fp.1.2 fp.2.1 now intent solver,
   { price := fp.2.1, tokenInfo := fp.2.2 })

/-- scoreWithPrices depends on the raw prices only through the
sanity-bounded values. -/
theorem scoreWithPrices_sane_congr (ops : RealOps) (rIn rIn2 rOut rOut2 : Option ℚ)
    (cache1 : Cache) (now : Nat) (intent : IntentInput) (solver : String)
    (hIn : sanePrice rIn (fallback intent.tokenIn) =
      sanePrice rIn2 (fallback intent.tokenIn))
    (hOut : sanePrice rOut (fallback intent.tokenOut) =
      sanePrice rOut2 (fallback intent.tokenOut)) :
    scoreWithPrices ops rIn rOut cache1 now intent solver =
      scoreWithPrices ops rIn2 rOut2 cache1 now intent solver := by
  simp only [scoreWithPrices, hIn, hOut]

/-- C7: a resolved price that deviates from the positive reference
price by a factor of more than 20 in either direction is discarded: the
quote is identical to the one computed with no live price for that leg
(so the reference price is what enters every downstream computation),
and its priceSource is reported as fallback, never live.  Both legs are
covered. -/
theorem sanityBoundFallback (ops : RealOps) (rawIn rawOut : Option ℚ) (cache1 : Cache)
    (now : Nat) (intent : IntentInput) (solver : String) :
    (∀ p : ℚ, rawIn = some p → 0 < fallback intent.tokenIn →
      (20 < p / fallback intent.tokenIn ∨ p / fallback intent.tokenIn < 1 / 20) →
      scoreWithPrices ops rawIn rawOut cache1 now intent solver =
        scoreWithPrices ops none rawOut cache1 now intent solver ∧
      (scoreWithPrices ops rawIn rawOut cache1 now intent solver).priceSource =
        PriceSource.fallback) ∧
    (∀ p : ℚ, rawOut = some p → 0 < fallback intent.tokenOut →
      (20 < p / fallback intent.tokenOut ∨ p / fallback intent.tokenOut < 1 / 20) →
      scoreWithPrices ops rawIn rawOut cache1 now intent solver =
        scoreWithPrices ops rawIn none cache1 now intent solver ∧
      (scoreWithPrices ops rawIn rawOut cache1 now intent solver).priceSource =
        PriceSource.fallback) := by
  constructor
  · intro p hp hfb hdev
    have hs : sanePrice rawIn (fallback intent.tokenIn) = none := by
      rw [hp]
      simp only [sanePrice]
      rw [if_pos ⟨hfb, hdev⟩]
    have he := scoreWithPrices_sane_congr ops rawIn none rawOut rawOut cache1 now
      intent solver (by rw [hs]; rfl) rfl
    refine ⟨he, ?_⟩
    rw [he]
    simp [scoreWithPrices, sanePrice]
  · intro p hp hfb hdev
    have hs : sanePrice rawOut (fallback intent.tokenOut) = none := by
      rw [hp]
      simp only [sanePrice]
      rw [if_pos ⟨hfb, hdev⟩]
    have he := scoreWithPrices_sane_congr ops rawIn rawIn rawOut none cache1 now
      intent solver rfl (by rw [hs]; rfl)
    refine ⟨he, ?_⟩
    rw [he]
    simp [scoreWithPrices, sanePrice]

/-- Concrete RealOps used by witnesses and counterexamples. -/
def exOps : RealOps := { boxMuller := fun _ _ => 0, log1p := fun _ => 0 }

/-- Concrete intent used by the solver-side witnesses: 100 WETH to USDC. -/
def exIntent : IntentInput :=
  { tokenIn := "weth", tokenOut := "usdc", amountIn := 100, minAmountOut := 95,
    maxSlippageBps := 10000, maxGasWei := 1000000000000000, deadline := 0 }

/-- Empty price cache. -/
def emptyCache : Cache := fun _ => none

/-- Witness for C7: a live WETH price of 100000 against reference 3200
(ratio 31.25) is discarded and the quote reports fallback pricing. -/
theorem sanityBoundFallback_witness :
    scoreWithPrices exOps (some 100000) (some 1) emptyCache 45000 exIntent "solver-alpha" =
      scoreWithPrices exOps none (some 1) emptyCache 45000 exIntent "solver-alpha" ∧
    (scoreWithPrices exOps (some 100000) (some 1) emptyCache 45000 exIntent
      "solver-alpha").priceSource = PriceSource.fallback :=
  (sanityBoundFallback exOps (some 100000) (some 1) emptyCache 45000 exIntent
    "solver-alpha").1 100000 rfl (by decide)
    (Or.inl (by rw [show fallback exIntent.tokenIn = 3200 from by decide]; norm_num))

/-- C8: when no live price survives for the input token (every lookup
failed or returned nothing, or the sanity bound discarded the resolved
price), scoreIntent still produces a complete quote for the requested
solver instead of failing: that leg's metadata is source fallback with
reliability 0.2 = 1/5, hence the priceReliable check is false and the
quote is marked invalid. -/
theorem fallbackReliability (ops : RealOps) (rawIn rawOut : Option ℚ) (cache1 : Cache)
    (now : Nat) (intent : IntentInput) (solver : String)
    (hnone : sanePrice rawIn (fallback intent.tokenIn) = none) :
    (scoreWithPrices ops rawIn rawOut cache1 now intent solver).priceMetaIn.source =
      MetaSource.fallback ∧
    (scoreWithPrices ops rawIn rawOut cache1 now intent solver).priceMetaIn.reliabilityScore
      = 1 / 5 ∧
    (scoreWithPrices ops rawIn rawOut cache1 now intent solver).checks.priceReliable
      = false ∧
    (scoreWithPrices ops rawIn rawOut cache1 now intent solver).valid = false ∧
    (scoreWithPrices ops rawIn rawOut cache1 now intent solver).solver = solver := by
  refine ⟨?_, ?_, ?_, ?_, ?_⟩ <;>
    simp [scoreWithPrices, hnone, buildPriceMeta] <;> norm_num

/-- Witness for C8: with every external lookup failed (raw price none)
a quote is still produced, fallback-classified, unreliable and invalid. -/
theorem fallbackReliability_witness :
    (scoreWithPrices exOps none (some 1) emptyCache 45000 exIntent
      "solver-alpha").priceMetaIn.source = MetaSource.fallback ∧
    (scoreWithPrices exOps none (some 1) emptyCache 45000 exIntent
      "solver-alpha").priceMetaIn.reliabilityScore = 1 / 5 ∧
    (scoreWithPrices exOps none (some 1) emptyCache 45000 exIntent
      "solver-alpha").checks.priceReliable = false ∧
    (scoreWithPrices exOps none (some 1) emptyCache 45000 exIntent
      "solver-alpha").valid = false ∧
    (scoreWithPrices exOps none (some 1) emptyCache 45000 exIntent
      "solver-alpha").solver = "solver-alpha" :=
  fallbackReliability exOps none (some 1) emptyCache 45000 exIntent "solver-alpha" rfl

/-- C6 (amended): two scoreIntent calls for the same solver, pair and
amount, inside the same 30-second bucket, whose price resolution yields
the same raw price pair, produce identical execution hashes, whatever
the caches, environments and exact call times.  (Equal resolved prices
is necessary: the 30-second cache TTL is not aligned with the bucket
boundary, so a cache expiry inside one bucket can change the resolved
price and hence the hash; see the counterexample.) -/
theorem executionHash_bucket_determinism (ops : RealOps) (env1 env2 : PriceEnv)
    (cs1 cs2 : Caches) (n1 n2 : Nat) (intent : IntentInput) (solver : String)
    (hbucket : n1 / 30000 = n2 / 30000)
    (hprices :
      (fetchPair env1 cs1.price cs1.tokenInfo n1 intent.tokenIn intent.tokenOut).1 =
      (fetchPair env2 cs2.price cs2.tokenInfo n2 intent.tokenIn intent.tokenOut).1) :
    (scoreIntent ops env1 cs1 n1 intent solver).1.executionHash =
      (scoreIntent ops env2 cs2 n2 intent solver).1.executionHash := by
  have hlem : ∀ (rIn rOut : Option ℚ) (c1 c2 : Cache),
      (scoreWithPrices ops rIn rOut c1 n1 intent solver).executionHash =
      (scoreWithPrices ops rIn rOut c2 n2 intent solver).executionHash := by
    intro rIn rOut c1 c2
    simp only [scoreWithPrices, hbucket]
  simp only [scoreIntent]
  rw [congrArg Prod.fst hprices, congrArg Prod.snd hprices]
  exact hlem _ _ _ _

/-- Caches for the C6 witness and counterexample: both legs cached at
time 5000. -/
def exCacheC6 : Cache := fun k =>
  if k = "ethereum" then some { priceUsd := 3200, ts := 5000, source := MetaSource.coingecko }
  else if k = "usd-coin" then some { priceUsd := 1, ts := 5000, source := MetaSource.coingecko }
  else none

/-- Module caches for the C6 scenarios. -/
def exCachesC6 : Caches := { price := exCacheC6, tokenInfo := fun _ => none }

/-- Environment for the C6 scenarios: the CoinGecko pair lookup now
reports a moved WETH price of 6400. -/
def exEnvC6 : PriceEnv :=
  { cgPair := some (some 6400, some 1), cgIn := none, cgOut := none,
    dexIn := none, dexOut := none, caIn := none, caOut := none }

/-- Witness for C6 (amended): calls at 30000 and 30010 share bucket 1
and both hit the fresh cache, so their execution hashes coincide. -/
theorem executionHash_bucket_determinism_witness :
    (scoreIntent exOps exEnvC6 exCachesC6 30000 exIntent "solver-alpha").1.executionHash =
      (scoreIntent exOps exEnvC6 exCachesC6 30010 exIntent "solver-alpha").1.executionHash :=
  executionHash_bucket_determinism exOps exEnvC6 exEnvC6 exCachesC6 exCachesC6
    30000 30010 exIntent "solver-alpha" rfl (by decide)

/-- Counterexample to C6 as stated: two scoreIntent calls with the same
solver, pair, amount, caches and environment, both inside time bucket 1
(times 30000 and 59999), return different execution hashes.  The cache
entries written at time 5000 are fresh for the first call (age 25000
under the 30000 TTL, resolved WETH price 3200) but expired for the
second (age 54999), which refetches and resolves the moved price 6400,
changing expectedOut and with it the hash, although the bucket never
changed. -/
theorem executionHash_counterexample :
    (30000 : Nat) / 30000 = 59999 / 30000 ∧
    (scoreIntent exOps exEnvC6 exCachesC6 30000 exIntent "solver-alpha").1.executionHash ≠
      (scoreIntent exOps exEnvC6 exCachesC6 59999 exIntent "solver-alpha").1.executionHash := by
  have hA : (scoreIntent exOps exEnvC6 exCachesC6 30000 exIntent
      "solver-alpha").1.executionHash.expectedOutFixed8 = 31936000000000 := by
    simp only [scoreIntent]
    rw [show (fetchPair exEnvC6 exCachesC6.price exCachesC6.tokenInfo 30000
          exIntent.tokenIn exIntent.tokenOut).1.1 = some 3200 from by decide,
        show (fetchPair exEnvC6 exCachesC6.price exCachesC6.tokenInfo 30000
          exIntent.tokenIn exIntent.tokenOut).1.2 = some 1 from by decide]
    simp only [scoreWithPrices]
    norm_num [sanePrice, exOps, toFixedInt,
      show exIntent.amountIn = 100 from rfl,
      show fallback exIntent.tokenIn = 3200 from by decide,
      show fallback exIntent.tokenOut = 1 from by decide,
      show (PROFILES "solver-alpha").getD DEFAULT_PROFILE =
        { label := "Speed-optimized", priceEdgeMean := 0.998, priceEdgeStd := 0.001,
          baseGas := 21000000000000, gasVar := 3000000000000, baseConf := 0.88,
          route := ["UniV3-Direct"] } from rfl]
  have hB : (scoreIntent exOps exEnvC6 exCachesC6 59999 exIntent
      "solver-alpha").1.executionHash.expectedOutFixed8 = 63872000000000 := by
    simp only [scoreIntent]
    rw [show (fetchPair exEnvC6 exCachesC6.price exCachesC6.tokenInfo 59999
          exIntent.tokenIn exIntent.tokenOut).1.1 = some 6400 from by decide,
        show (fetchPair exEnvC6 exCachesC6.price exCachesC6.tokenInfo 59999
          exIntent.tokenIn exIntent.tokenOut).1.2 = some 1 from by decide]
    simp only [scoreWithPrices]
    norm_num [sanePrice, exOps, toFixedInt,
      show exIntent.amountIn = 100 from rfl,
      show fallback exIntent.tokenIn = 3200 from by decide,
      show fallback exIntent.tokenOut = 1 from by decide,
      show (PROFILES "solver-alpha").getD DEFAULT_PROFILE =
        { label := "Speed-optimized", priceEdgeMean := 0.998, priceEdgeStd := 0.001,
          baseGas := 21000000000000, gasVar := 3000000000000, baseConf := 0.88,
          route := ["UniV3-Direct"] } from rfl]
  refine ⟨rfl, fun h => ?_⟩
  have h8 := congrArg ExecPayload.expectedOutFixed8 h
  rw [hA, hB] at h8
  exact absurd h8 (by norm_num)

/-!
Part 3 models the HTTP service layer (the current server with the
strict-override selection policy and the admission control middleware).
The /compete handler is modeled from its selection logic onward: the
quotes and the risk analysis arrive as inputs (the quotes are produced
by scoreIntent, the risk labels by the external classifier or its
fallback), and the handler filters, risk-gates and ranks them.  The
response JSON is modeled by the fields the policy determines: best, the
valid pool, and the response code that distinguishes a normal win, the
strict override, and the three refusals. -/

/-- Risk label of one quote, from type RiskRating. -/
inductive RiskRating
  | safe
  | caution
  | danger
  | unanalyzed
deriving DecidableEq, Repr

/-- One entry of the risk analysis quotes array. -/
structure QuoteRisk where
  solver : String
  riskRating : RiskRating
deriving DecidableEq, Repr

/-- The risk map of the /compete handler: later entries of the risk
analysis overwrite earlier ones (JS Map.set), and any quote solver the
analysis omitted defaults to caution, never safe. -/
def riskOf (riskQuotes : List QuoteRisk) (solver : String) : RiskRating :=
  match riskQuotes.reverse.find? (fun rq => rq.solver == solver) with
  | some rq => rq.riskRating
  | none => RiskRating.caution

/-- Winner of a stable descending sort by score: the first element
among those of maximal score.  Models pool.sort((a, b) => b.score -
a.score)[0] under the guaranteed-stable JS sort. -/
def pickBestAux (acc : SolverQuote) : List SolverQuote → SolverQuote
  | [] => acc
  | q :: rest => pickBestAux (if acc.score < q.score then q else acc) rest

/-- Head of the stable descending sort of a pool. -/
def pickBest : List SolverQuote → Option SolverQuote
  | [] => none
  | q :: rest => some (pickBestAux q rest)

/-- Response code of the /compete handler: none for a normal win. -/
inductive CompeteCode
  | dangerOverride
  | allDanger
  | noValidQuotes
  | noSafeQuotes
deriving DecidableEq, Repr

/-- The policy-determined fields of the /compete response. -/
structure CompeteResult where
  best : Option SolverQuote
  validQuotes : List SolverQuote
  quotes : List SolverQuote
  code : Option CompeteCode
deriving DecidableEq, Repr

/-- The selection policy of the /compete handler: filter to valid
quotes, exclude danger-rated ones, and pick the stable top scorer; when
the safe pool is empty, refuse with a code (ALL_DANGER, NO_VALID_QUOTES
or NO_SAFE_QUOTES) unless every valid quote is danger-rated and the
caller set strictMode, in which case the best valid quote wins, flagged
DANGER_OVERRIDE. -/
def compete (quotes : List SolverQuote) (riskQuotes : List QuoteRisk)
    (strictMode : Bool) : CompeteResult :=
  let validQuotes := quotes.filter (fun q => q.valid)
  let safePool := validQuotes.filter
    (fun q => !(riskOf riskQuotes q.solver == RiskRating.danger))
  if safePool.isEmpty then
    let allDanger := !validQuotes.isEmpty &&
      validQuotes.all (fun q => riskOf riskQuotes q.solver == RiskRating.danger)
    let noValid := validQuotes.isEmpty
    if allDanger && strictMode then
      { best := pickBest validQuotes, validQuotes := validQuotes, quotes := quotes,
        code := some CompeteCode.dangerOverride }
    else
      { best := none, validQuotes := validQuotes, quotes := quotes,
        code := some (if allDanger then CompeteCode.allDanger
          else if noValid then CompeteCode.noValidQuotes
          else CompeteCode.noSafeQuotes) }
  else
    { best := pickBest safePool, validQuotes := validQuotes, quotes := quotes,
      code := none }

/-- The winner of pickBestAux is the accumulator or a list element, its
score dominates both, and every element strictly before it in the list
scores strictly below it (the stable-sort tie-break). -/
theorem pickBestAux_spec (l : List SolverQuote) (acc : SolverQuote) :
    (pickBestAux acc l = acc ∧ ∀ x ∈ l, x.score ≤ acc.score) ∨
    (∃ l1 l2, l = l1 ++ pickBestAux acc l :: l2 ∧
      acc.score < (pickBestAux acc l).score ∧
      (∀ x ∈ l1, x.score < (pickBestAux acc l).score) ∧
      (∀ x ∈ l2, x.score ≤ (pickBestAux acc l).score)) := by
  induction l generalizing acc with
  | nil => exact Or.inl ⟨rfl, by simp⟩
  | cons q rest ih =>
    by_cases hq : acc.score < q.score
    · have hstep : pickBestAux acc (q :: rest) = pickBestAux q rest := by
        simp [pickBestAux, hq]
      rw [hstep]
      rcases ih q with ⟨heq, hle⟩ | ⟨l1, l2, hsplit, hlt, hl1, hl2⟩
      · refine Or.inr ⟨[], rest, ?_, ?_, ?_, ?_⟩
        · rw [heq]
          rfl
        · rw [heq]
          exact hq
        · simp
        · rw [heq]
          exact hle
      · set w := pickBestAux q rest with hw
        refine Or.inr ⟨q :: l1, l2, ?_, ?_, ?_, ?_⟩
        · rw [List.cons_append]
          rw [← hsplit]
        · exact lt_trans hq hlt
        · intro x hx
          rcases List.mem_cons.mp hx with hx | hx
          · rw [hx]
            exact hlt
          · exact hl1 x hx
        · exact hl2
    · have hstep : pickBestAux acc (q :: rest) = pickBestAux acc rest := by
        simp [pickBestAux, hq]
      rw [hstep]
      rcases ih acc with ⟨heq, hle⟩ | ⟨l1, l2, hsplit, hlt, hl1, hl2⟩
      · refine Or.inl ⟨heq, ?_⟩
        intro x hx
        rcases List.mem_cons.mp hx with hx | hx
        · rw [hx]
          exact le_of_not_lt hq
        · exact hle x hx
      · set w := pickBestAux acc rest with hw
        refine Or.inr ⟨q :: l1, l2, ?_, ?_, ?_, ?_⟩
        · rw [List.cons_append]
          rw [← hsplit]
        · exact hlt
        · intro x hx
          rcases List.mem_cons.mp hx with hx | hx
          · rw [hx]
            exact lt_of_le_of_lt (le_of_not_lt hq) hlt
          · exact hl1 x hx
        · exact hl2

/-- The reported winner is a member of the pool, tops its scores, and is
the first element of the pool achieving the maximal score. -/
theorem pickBest_spec (l : List SolverQuote) (b : SolverQuote)
    (h : pickBest l = some b) :
    b ∈ l ∧ (∀ x ∈ l, x.score ≤ b.score) ∧
    ∃ l1 l2, l = l1 ++ b :: l2 ∧ ∀ x ∈ l1, x.score < b.score := by
  cases l with
  | nil => cases h
  | cons q rest =>
    injection h with h
    rcases pickBestAux_spec rest q with ⟨heq, hle⟩ | ⟨l1, l2, hsplit, hlt, hl1, hl2⟩
    · have hbq : b = q := h.symm.trans heq
      subst hbq
      refine ⟨List.mem_cons_self b rest, ?_, [], rest, rfl, by simp⟩
      intro x hx
      rcases List.mem_cons.mp hx with hx | hx
      · rw [hx]
      · exact hle x hx
    · rw [h] at hsplit hlt hl1 hl2
      refine ⟨?_, ?_, q :: l1, l2, ?_, ?_⟩
      · exact List.mem_cons_of_mem q
          (hsplit ▸ List.mem_append_right l1 (List.mem_cons_self b l2))
      · intro x hx
        rcases List.mem_cons.mp hx with hx | hx
        · rw [hx]
          exact le_of_lt hlt
        · rw [hsplit] at hx
          rcases List.mem_append.mp hx with hx | hx
          · exact le_of_lt (hl1 x hx)
          · rcases List.mem_cons.mp hx with hx | hx
            · rw [hx]
            · exact hl2 x hx
      · rw [hsplit]
        rfl
      · intro x hx
        rcases List.mem_cons.mp hx with hx | hx
        · rw [hx]
          exact hlt
        · exact hl1 x hx

/-- C4: when the valid pool is non-empty but every valid quote is
danger-rated, compete without strictMode refuses: best is null and the
response carries the ALL_DANGER refusal code; with strictMode true it
returns a winner drawn from the valid pool, flagged with the distinct
DANGER_OVERRIDE code. -/
theorem allDangerPolicy (quotes : List SolverQuote) (riskQuotes : List QuoteRisk)
    (hvalid : quotes.filter (fun q => q.valid) ≠ [])
    (hall : ∀ q ∈ quotes.filter (fun q => q.valid),
      riskOf riskQuotes q.solver = RiskRating.danger) :
    ((compete quotes riskQuotes false).best = none ∧
     (compete quotes riskQuotes false).code = some CompeteCode.allDanger) ∧
    (∃ b, (compete quotes riskQuotes true).best = some b ∧
       b ∈ quotes.filter (fun q => q.valid) ∧ b.valid = true ∧
       (compete quotes riskQuotes true).code = some CompeteCode.dangerOverride) := by
  have hsp : (quotes.filter (fun q => q.valid)).filter
      (fun q => !(riskOf riskQuotes q.solver == RiskRating.danger)) = [] := by
    rw [List.filter_eq_nil_iff]
    intro q hq
    simp [hall q hq]
  have hA : (!(quotes.filter (fun q => q.valid)).isEmpty &&
      (quotes.filter (fun q => q.valid)).all
        (fun q => riskOf riskQuotes q.solver == RiskRating.danger)) = true := by
    rw [Bool.and_eq_true, List.all_eq_true]
    constructor
    · simp [List.isEmpty_iff, hvalid]
    · intro q hq
      simp [hall q hq]
  refine ⟨?_, ?_⟩
  · simp only [compete, hsp, List.isEmpty_nil, if_true, hA, Bool.and_false,
      Bool.false_eq_true, if_false, if_true]
    constructor
    · trivial
    · trivial
  · simp only [compete, hsp, List.isEmpty_nil, if_true, hA, Bool.and_true, if_true]
    cases hv : quotes.filter (fun q => q.valid) with
    | nil => exact absurd hv hvalid
    | cons q rest =>
        have hb : pickBest (q :: rest) = some (pickBestAux q rest) := by
          simp [pickBest]
        have hmem := (pickBest_spec (q :: rest) (pickBestAux q rest) hb).1
        refine ⟨pickBestAux q rest, ?_, ?_, ?_, ?_⟩
        · exact hb
        · exact hmem
        · have : pickBestAux q rest ∈ quotes.filter (fun x => x.valid) := hv ▸ hmem
          exact (List.mem_filter.mp this).2
        · trivial

/-- C5: outside the explicitly flagged strict override (claim C4), any
reported winner is a valid quote that is not danger-rated, drawn from
the safe pool as its maximal score with ties broken by first-seen order
(the winner is the first element of the pool achieving the maximum);
and whenever exactly one quote passes all four deterministic checks and
it is not danger-rated, it is the winner regardless of relative
score. -/
theorem bestSelection (quotes : List SolverQuote) (riskQuotes : List QuoteRisk)
    (strictMode : Bool) :
    ((compete quotes riskQuotes strictMode).code ≠ some CompeteCode.dangerOverride →
      ∀ b, (compete quotes riskQuotes strictMode).best = some b →
        b.valid = true ∧ riskOf riskQuotes b.solver ≠ RiskRating.danger ∧
        (b ∈ (quotes.filter (fun q => q.valid)).filter
            (fun q => !(riskOf riskQuotes q.solver == RiskRating.danger)) ∧
         (∀ x ∈ (quotes.filter (fun q => q.valid)).filter
            (fun q => !(riskOf riskQuotes q.solver == RiskRating.danger)),
            x.score ≤ b.score) ∧
         ∃ l1 l2, (quotes.filter (fun q => q.valid)).filter
            (fun q => !(riskOf riskQuotes q.solver == RiskRating.danger)) =
              l1 ++ b :: l2 ∧ ∀ x ∈ l1, x.score < b.score)) ∧
    (∀ q, quotes.filter (fun q => q.valid) = [q] →
      riskOf riskQuotes q.solver ≠ RiskRating.danger →
      (compete quotes riskQuotes strictMode).best = some q) := by
  constructor
  · intro hcode b hbest
    by_cases hsp : ((quotes.filter (fun q => q.valid)).filter
        (fun q => !(riskOf riskQuotes q.solver == RiskRating.danger))).isEmpty
    · exfalso
      simp only [compete, hsp, if_true] at hbest hcode
      by_cases hov : (!(quotes.filter (fun q => q.valid)).isEmpty &&
          (quotes.filter (fun q => q.valid)).all
            (fun q => riskOf riskQuotes q.solver == RiskRating.danger)) && strictMode
      · rw [if_pos hov] at hcode
        exact hcode rfl
      · rw [if_neg hov] at hbest
        cases hbest
    · simp only [compete, hsp, Bool.false_eq_true, if_false] at hbest
      have hspec := pickBest_spec _ b hbest
      have hmem := hspec.1
      have hmemf := List.mem_filter.mp hmem
      have hval := (List.mem_filter.mp hmemf.1).2
      refine ⟨hval, ?_, hmem, hspec.2.1, hspec.2.2⟩
      intro hdanger
      have := hmemf.2
      rw [hdanger] at this
      simp at this
  · intro q hv hq
    have hsp : (quotes.filter (fun q => q.valid)).filter
        (fun q => !(riskOf riskQuotes q.solver == RiskRating.danger)) = [q] := by
      rw [hv]
      have hb : (!(riskOf riskQuotes q.solver == RiskRating.danger)) = true := by
        simp [hq]
      simp [List.filter, hb]
    simp only [compete, hsp]
    rw [if_neg (by simp)]
    simp [pickBest, pickBestAux]

/-- A concrete quote template for selection-policy witnesses. -/
def exQuote (name : String) (sc : ℚ) (v : Bool) : SolverQuote :=
  { solver := name, expectedOutFixed6 := 98000000, expectedGasWei := 21000000000000,
    confidence := 1, score := sc, valid := v,
    checks := { minOutPass := v, gasPass := v, slippagePass := v, priceReliable := v },
    impliedSlippageBps := 0, priceSource := PriceSource.live,
    priceMetaIn := { source := MetaSource.coingecko, timestamp := 0, isStale := false,
                     reliabilityScore := 1 },
    priceMetaOut := { source := MetaSource.coingecko, timestamp := 0, isStale := false,
                      reliabilityScore := 1 },
    route := ["UniV3-Direct"],
    executionHash := { solver := name, tokenIn := "weth", tokenOut := "usdc",
                       amountIn := 100, expectedOutFixed8 := 0,
                       expectedGasWei := 21000000000000, bucket := 1 } }

/-- Quotes for the C4 witness: one valid quote, one invalid. -/
def exQuotesC4 : List SolverQuote :=
  [exQuote "solver-alpha" 9 true, exQuote "solver-beta" 8 false]

/-- Risk labels for the C4 witness: the only valid quote is danger. -/
def exRisksC4 : List QuoteRisk :=
  [{ solver := "solver-alpha", riskRating := RiskRating.danger }]

/-- Witness for C4 at a concrete all-danger pool. -/
theorem allDangerPolicy_witness :
    ((compete exQuotesC4 exRisksC4 false).best = none ∧
     (compete exQuotesC4 exRisksC4 false).code = some CompeteCode.allDanger) ∧
    (∃ b, (compete exQuotesC4 exRisksC4 true).best = some b ∧
       b ∈ exQuotesC4.filter (fun q => q.valid) ∧ b.valid = true ∧
       (compete exQuotesC4 exRisksC4 true).code = some CompeteCode.dangerOverride) :=
  allDangerPolicy exQuotesC4 exRisksC4 (by decide) (by decide)

/-- Quotes for the C5 witness: only the lowest-scoring quote is valid. -/
def exQuotesC5 : List SolverQuote :=
  [exQuote "solver-alpha" 9 false, exQuote "solver-beta" 2 true,
   exQuote "solver-gamma" 7 false]

/-- Risk labels for the C5 witness: the valid quote is labeled safe. -/
def exRisksC5 : List QuoteRisk :=
  [{ solver := "solver-beta", riskRating := RiskRating.safe }]

/-- Witness for C5: the single quote passing every check wins although
both invalid quotes outscore it. -/
theorem bestSelection_witness :
    (compete exQuotesC5 exRisksC5 false).best = some (exQuote "solver-beta" 2 true) :=
  (bestSelection exQuotesC5 exRisksC5 false).2 (exQuote "solver-beta" 2 true)
    (by decide) (by decide)

/-- One admission bucket, from type RequestBucket. -/
structure RequestBucket where
  count : Nat
  resetAt : Nat
deriving DecidableEq, Repr

/-- The bucket table keyed by client identity, modeling the JS Map with
insertion order (lookup by key, insert-or-replace in place). -/
def BucketTable : Type := List (String × RequestBucket)

/-- Map.get. -/
def bGet : BucketTable → String → Option RequestBucket
  | [], _ => none
  | e :: rest, k => if e.1 = k then some e.2 else bGet rest k

/-- Map.set: replace in place or append. -/
def bSet : BucketTable → String → RequestBucket → BucketTable
  | [], k, v => [(k, v)]
  | e :: rest, k, v => if e.1 = k then (k, v) :: rest else e :: bSet rest k v

/-- Outcome of the middleware: pass the request on, or reply 429 with a
Retry-After hint in seconds. -/
inductive RLDecision
  | admitted
  | rejected (status retryAfterSec : Nat)
deriving DecidableEq, Repr

/-- rateLimitExpensiveRoutes with window W ms and per-window limit L:
read the caller's bucket, sweep expired buckets when the table exceeds
2000 entries, then admit with a fresh bucket when absent or past its
reset time, reject with 429 and ceil((resetAt - now) / 1000) seconds
(at least 1) when the count reached L, else count the request. -/
def rateLimitExpensiveRoutes (W L : Nat) (m : BucketTable) (ip : String)
    (now : Nat) : RLDecision × BucketTable :=
  let bucket := bGet m ip
  let m1 := if 2000 < m.length then m.filter (fun e => decide (now < e.2.resetAt))
    else m
  match bucket with
  | none => (RLDecision.admitted, bSet m1 ip { count := 1, resetAt := now + W })
  | some b =>
      if b.resetAt ≤ now then
        (RLDecision.admitted, bSet m1 ip { count := 1, resetAt := now + W })
      else if L ≤ b.count then
        (RLDecision.rejected 429 (max 1 ((b.resetAt - now + 999) / 1000)), m1)
      else
        (RLDecision.admitted, bSet m1 ip { b with count := b.count + 1 })

/-- Run a sequence of gated requests from one identity at the given
times. -/
def runRequests (W L : Nat) (m : BucketTable) (ip : String) :
    List Nat → List RLDecision × BucketTable
  | [] => ([], m)
  | t :: ts =>
      let r := rateLimitExpensiveRoutes W L m ip t
      let rest := runRequests W L r.2 ip ts
      (r.1 :: rest.1, rest.2)

theorem bGet_bSet (m : BucketTable) (k : String) (v : RequestBucket) :
    bGet (bSet m k v) k = some v := by
  induction m with
  | nil => simp [bSet, bGet]
  | cons e rest ih =>
      by_cases h : e.1 = k
      · simp [bSet, bGet, h]
      · simp [bSet, bGet, h, ih]

/-- In-window requests from a singleton table: each one is admitted and
increments the count, while the reset time stays put. -/
theorem runRequests_window (W L : Nat) (ip : String) (r : Nat) (ts : List Nat)
    (k : Nat) (hts : ∀ t ∈ ts, t < r) (hk : k + ts.length ≤ L) :
    (runRequests W L [(ip, { count := k, resetAt := r })] ip ts).1 =
      List.replicate ts.length RLDecision.admitted ∧
    (runRequests W L [(ip, { count := k, resetAt := r })] ip ts).2 =
      [(ip, { count := k + ts.length, resetAt := r })] := by
  induction ts generalizing k with
  | nil => simp [runRequests]
  | cons t ts ih =>
      have ht := hts t (List.mem_cons_self t ts)
      have h1 : ¬ (r ≤ t) := by omega
      have h2 : ¬ (L ≤ k) := by
        simp only [List.length_cons] at hk
        omega
      have hstep : rateLimitExpensiveRoutes W L [(ip, { count := k, resetAt := r })] ip t =
          (RLDecision.admitted, [(ip, { count := k + 1, resetAt := r })]) := by
        simp [rateLimitExpensiveRoutes, bGet, bSet, h1, h2]
      have ihr := ih (k + 1) (fun t ht => hts t (List.mem_cons_of_mem _ ht))
        (by simp only [List.length_cons] at hk; omega)
      simp only [runRequests, hstep]
      refine ⟨?_, ?_⟩
      · simp [ihr.1, List.replicate_succ]
      · simp only [ihr.2]
        have h3 : k + 1 + ts.length = k + (t :: ts).length := by
          simp only [List.length_cons]
          omega
        rw [h3]

/-- C9: with window W (a whole number of seconds) and limit L, the
first L gated requests of a fresh identity inside one window are all
admitted; one more request inside the window is rejected with HTTP 429
and a Retry-After of at least 1 and at most W / 1000 seconds (the
window length); and any request at or after its bucket's reset time is
admitted and resets the identity to count 1 with a fresh window. -/
theorem admissionControl (W L : Nat) (ip : String) (t0 : Nat) (ts : List Nat)
    (hW : 1000 ∣ W) (hWpos : 0 < W) (hL : 0 < L)
    (hlen : ts.length = L - 1)
    (hts : ∀ t ∈ ts, t < t0 + W)
    (tNext : Nat) (ht1 : t0 ≤ tNext) (ht2 : tNext < t0 + W) :
    (runRequests W L [] ip (t0 :: ts)).1 = List.replicate L RLDecision.admitted ∧
    (∃ ra, (rateLimitExpensiveRoutes W L (runRequests W L [] ip (t0 :: ts)).2 ip tNext).1 =
        RLDecision.rejected 429 ra ∧ 1 ≤ ra ∧ ra ≤ W / 1000) ∧
    (∀ (m : BucketTable) (c r t2 : Nat),
      bGet m ip = some { count := c, resetAt := r } → m.length ≤ 2000 → r ≤ t2 →
      (rateLimitExpensiveRoutes W L m ip t2).1 = RLDecision.admitted ∧
      bGet (rateLimitExpensiveRoutes W L m ip t2).2 ip =
        some { count := 1, resetAt := t2 + W }) := by
  have hfirst : rateLimitExpensiveRoutes W L [] ip t0 =
      (RLDecision.admitted, [(ip, { count := 1, resetAt := t0 + W })]) := by
    simp [rateLimitExpensiveRoutes, bGet, bSet]
  have hwin := runRequests_window W L ip (t0 + W) ts 1 hts (by omega)
  have hrun1 : (runRequests W L [] ip (t0 :: ts)).1 =
      RLDecision.admitted :: (runRequests W L
        [(ip, { count := 1, resetAt := t0 + W })] ip ts).1 := by
    simp [runRequests, hfirst]
  have hrun2 : (runRequests W L [] ip (t0 :: ts)).2 =
      [(ip, { count := 1 + ts.length, resetAt := t0 + W })] := by
    simp [runRequests, hfirst, hwin.2]
  refine ⟨?_, ?_, ?_⟩
  · rw [hrun1, hwin.1, hlen]
    rw [show L = (L - 1) + 1 from by omega]
    simp [List.replicate_succ]
  · rw [hrun2]
    refine ⟨max 1 ((t0 + W - tNext + 999) / 1000), ?_, ?_, ?_⟩
    · have hc : ¬ (t0 + W ≤ tNext) := by omega
      have hcount : L ≤ 1 + ts.length := by omega
      simp [rateLimitExpensiveRoutes, bGet, hc, hcount]
    · omega
    · obtain ⟨w, hw⟩ := hW
      have h1 : (t0 + W - tNext + 999) / 1000 ≤ W / 1000 := by omega
      have h2 : 1 ≤ W / 1000 := by omega
      omega
  · intro m c r t2 hm hlen2 hr
    have hsk : ¬ (2000 < m.length) := by omega
    constructor
    · simp [rateLimitExpensiveRoutes, hm, hsk, hr]
    · simp [rateLimitExpensiveRoutes, hm, hsk, hr, bGet_bSet]

/-- Witness for C9 with the default configuration W = 60000 ms,
L = 30: thirty requests are admitted, the 31st inside the window is
rejected with 429 and a Retry-After of at most 60 seconds, and a
request at the reset time is admitted with a fresh count of 1. -/
theorem admissionControl_witness :
    (runRequests 60000 30 [] "1.2.3.4" (0 :: List.replicate 29 5)).1 =
      List.replicate 30 RLDecision.admitted ∧
    (∃ ra, (rateLimitExpensiveRoutes 60000 30
        (runRequests 60000 30 [] "1.2.3.4" (0 :: List.replicate 29 5)).2
        "1.2.3.4" 10).1 = RLDecision.rejected 429 ra ∧
        1 ≤ ra ∧ ra ≤ 60000 / 1000) ∧
    ((rateLimitExpensiveRoutes 60000 30
        [("1.2.3.4", { count := 30, resetAt := 60000 })] "1.2.3.4" 60000).1 =
      RLDecision.admitted ∧
     bGet (rateLimitExpensiveRoutes 60000 30
        [("1.2.3.4", { count := 30, resetAt := 60000 })] "1.2.3.4" 60000).2
        "1.2.3.4" = some { count := 1, resetAt := 120000 }) := by
  have h := admissionControl 60000 30 "1.2.3.4" 0 (List.replicate 29 5)
    (by norm_num) (by norm_num) (by norm_num) (by simp)
    (by
      intro t ht
      rw [List.eq_of_mem_replicate ht]
      omega)
    10 (by omega) (by omega)
  refine ⟨h.1, h.2.1, ?_⟩
  have h3 := h.2.2 [("1.2.3.4", { count := 30, resetAt := 60000 })] 30 60000 60000
    (by simp [bGet]) (by simp) (by omega)
  exact ⟨h3.1, by rw [h3.2]⟩
